import Mathlib

/-! ZeroTier One: the peer path state machine (`node/Peer.cpp`) and the frame filter
(`node/Filter.hpp`).

A shallow embedding of `Peer::onReceive`, `Peer::send`, `Peer::sendFirewallOpener`,
`Peer::sendPing`, `Peer::setPathAddress` and `Peer::clearFixedFlag`, and of the operators of
`Filter::Rule`.

* `uint64_t` and `unsigned int` values are natural numbers; every subtraction and every
  narrowing cast of the source is written with its explicit wrap-around (`sub64`, `u32`).
* The collaborators reached through `_r` (`Demarc::send`, `Switch::sendHELLO`,
  `Switch::sendPROBE`, `Switch::announceMulticastGroups`) are not part of `Peer.cpp`.  A call
  to one of them is recorded in `RuntimeEnvironment.calls`; its boolean result is read from
  `RuntimeEnvironment.outcome`, an arbitrary function of the number of calls made so far, so
  that a theorem quantified over `outcome` covers every behaviour of the transport.
* What `Peer.cpp` takes from headers (`Peer.hpp`, `Demarc.hpp`, `Constants.hpp`) is gathered in
  `Headers` and passed as a parameter.
* `Filter::add` and `Filter::operator()` are declared in `Filter.hpp` and defined in
  `Filter.cpp`, which is not among the sources; they are modelled from the specification.
  The comparisons of `Range.hpp` are parameters of the rule operators.
-/

set_option linter.unusedVariables false

namespace ZeroTier

/-! ## Machine arithmetic -/

/-- Subtraction of two `uint64_t` values: the difference modulo `2 ^ 64`. -/
def sub64 (a b : Nat) : Nat := (a % 2 ^ 64 + (2 ^ 64 - b % 2 ^ 64)) % 2 ^ 64

/-- The cast `(unsigned int)x` of a `uint64_t`: the low 32 bits (`unsigned int` is 32 bits
wide on the platforms the program is built for). -/
def u32 (x : Nat) : Nat := x % 2 ^ 32

/-! ## Data model -/

/-- Modelled from the spec: `InetAddress` (declared in `InetAddress.hpp`, absent from the
sources).  An address is null or belongs to one of the two families; `==` compares family,
IP and port. -/
inductive InetAddress where
  | null
  | v4 (ip port : Nat)
  | v6 (ip port : Nat)
  deriving DecidableEq, Repr

/-- `InetAddress::isV4()`. -/
def InetAddress.isV4 : InetAddress → Bool
  | .v4 _ _ => true
  | _ => false

/-- `InetAddress::isV6()`. -/
def InetAddress.isV6 : InetAddress → Bool
  | .v6 _ _ => true
  | _ => false

/-- `InetAddress::operator bool()`: the address is not null. -/
def InetAddress.toBool : InetAddress → Bool
  | .null => false
  | _ => true

/-- `InetAddress::AddressType`, the selector of `clearFixedFlag`. -/
inductive AddressType where
  | TYPE_NULL
  | TYPE_IPV4
  | TYPE_IPV6
  deriving DecidableEq, Repr

/-- Modelled from the spec: `Packet::Verb` (declared in `Packet.hpp`, absent from the
sources).  The three verbs `Peer.cpp` names, and `other` for every remaining verb code. -/
inductive Verb where
  | VERB_NOP
  | VERB_FRAME
  | VERB_MULTICAST_FRAME
  | other (code : Nat)
  deriving DecidableEq, Repr

/-- One slot of `_requestHistory`; `timestamp = 0` marks the slot empty. -/
structure RequestHistoryItem where
  timestamp : Nat
  packetId : Nat
  verb : Verb
  deriving DecidableEq, Repr

/-- The per-family path record (`Peer::WanPath`). -/
structure WanPath where
  lastSend : Nat
  lastReceive : Nat
  lastFirewallOpener : Nat
  localPort : Nat
  addr : InetAddress
  fixed : Bool
  deriving DecidableEq, Repr

/-- The mutable fields of a `Peer` (identity and key are never touched by `Peer.cpp` after
construction and are left out).  `_requestHistory` is the array of
`ZT_PEER_REQUEST_HISTORY_LENGTH` slots, slot `0` first. -/
structure Peer where
  _ipv4p : WanPath
  _ipv6p : WanPath
  _lastUsed : Nat
  _lastUnicastFrame : Nat
  _lastMulticastFrame : Nat
  _lastAnnouncedTo : Nat
  _vMajor : Nat
  _vMinor : Nat
  _vRevision : Nat
  _latency : Nat
  _requestHistory : List RequestHistoryItem
  _requestHistoryPtr : Nat
  deriving DecidableEq, Repr

/-- What `Peer.cpp` uses from headers that are not among the sources: the constants of
`Constants.hpp` and `Demarc.hpp`, and `WanPath::isActive` of `Peer.hpp`. -/
structure Headers where
  ZT_MULTICAST_LIKE_EXPIRE : Int
  ZT_FIREWALL_OPENER_HOPS : Int
  ANY_PORT : Nat
  NULL_PORT : Nat
  isActive : WanPath → Nat → Bool

/-- Modelled from the spec: `WanPath::isActive` (declared in `Peer.hpp`, absent from the
sources): `now - lastReceive` lies within the liveness window. -/
def isActiveWithin (window : Nat) (p : WanPath) (now : Nat) : Bool :=
  decide (sub64 now p.lastReceive < window)

/-- A concrete instance of `Headers` on which the definitions can be evaluated. -/
def sampleHeaders : Headers where
  ZT_MULTICAST_LIKE_EXPIRE := 120000
  ZT_FIREWALL_OPENER_HOPS := 2
  ANY_PORT := 2 ^ 64 - 1
  NULL_PORT := 0
  isActive := isActiveWithin 300000

/-! ## Collaborators -/

/-- A call made through the runtime environment `_r`. -/
inductive Event where
  | announceMulticastGroups
  | sendPROBE (localPort : Nat) (remoteAddr : InetAddress)
  | sendHELLO (localPort : Nat) (addr : InetAddress)
  | demarcSend (localPort : Nat) (addr : InetAddress) (data : List Nat) (len : Nat) (hops : Int)
  deriving DecidableEq, Repr

/-- The runtime environment `_r`: the results the collaborators will give, and the calls
made to them so far, oldest first. -/
structure RuntimeEnvironment where
  outcome : Nat → Bool
  calls : List Event

/-- Perform one collaborator call: its result is `outcome` at the number of earlier calls. -/
def RuntimeEnvironment.invoke (r : RuntimeEnvironment) (e : Event) : Bool × RuntimeEnvironment :=
  (r.outcome r.calls.length, { r with calls := r.calls ++ [e] })

/-! ## `Peer::onReceive` -/

/-- The right-hand side `(ZT_MULTICAST_LIKE_EXPIRE / 2) - 1000` of the announcement test,
an `int` converted to `uint64_t` by the comparison. -/
def announceInterval (K : Headers) : Nat :=
  ((Int.tdiv K.ZT_MULTICAST_LIKE_EXPIRE 2 - 1000) % (2 ^ 64 : Int)).toNat

/-- The condition of the loop body at lines 94: the slot is in use and answers
`(inRePacketId, inReVerb)`. -/
def slotMatches (inRePacketId : Nat) (inReVerb : Verb) (h : RequestHistoryItem) : Bool :=
  decide (h.timestamp ≠ 0) && decide (h.packetId = inRePacketId) && decide (h.verb = inReVerb)

/-- The `for` loop of lines 93-108 over the request history, from the current slot on:
at the first matching slot the latency is stored, the address is learned unless the path is
fixed, the slot is emptied, and the loop is left. -/
def requestHistoryLoop (remoteAddr : InetAddress) (inRePacketId : Nat) (inReVerb : Verb)
    (now : Nat) : List RequestHistoryItem → Nat → WanPath → List RequestHistoryItem × Nat × WanPath
  | [], latency, wp => ([], latency, wp)
  | h :: rest, latency, wp =>
    if slotMatches inRePacketId inReVerb h then
      ({ h with timestamp := 0 } :: rest,
       min (u32 (sub64 now h.timestamp)) 0xffff,
       if !wp.fixed then { wp with addr := remoteAddr } else wp)
    else
      let res := requestHistoryLoop remoteAddr inRePacketId inReVerb now rest latency wp
      (h :: res.1, res.2.1, res.2.2)

/-- Lines 81-84: the multicast announcement throttle. -/
def announceStep (K : Headers) (r : RuntimeEnvironment) (self : Peer) (now : Nat) :
    Peer × RuntimeEnvironment :=
  if sub64 now self._lastAnnouncedTo ≥ announceInterval K then
    ({ self with _lastAnnouncedTo := now }, (r.invoke Event.announceMulticastGroups).2)
  else
    (self, r)

/-- Line 87: `wp = (remoteAddr.isV4() ? &_ipv4p : &_ipv6p)`, read. -/
def selectedPath (self : Peer) (remoteAddr : InetAddress) : WanPath :=
  if remoteAddr.isV4 then self._ipv4p else self._ipv6p

/-- Writes made through the pointer `wp` of line 87. -/
def storeSelectedPath (self : Peer) (remoteAddr : InetAddress) (wp : WanPath) : Peer :=
  if remoteAddr.isV4 then { self with _ipv4p := wp } else { self with _ipv6p := wp }

/-- Lines 88-89: the receive bookkeeping on the selected path. -/
def receivedPath (K : Headers) (wp : WanPath) (localPort : Nat) (now : Nat) : WanPath :=
  { wp with lastReceive := now, localPort := if localPort ≠ 0 then localPort else K.ANY_PORT }

/-- Lines 92-109: the request history is scanned only for a reply (`inReVerb != VERB_NOP`). -/
def replyStep (remoteAddr : InetAddress) (inRePacketId : Nat) (inReVerb : Verb) (now : Nat)
    (hist : List RequestHistoryItem) (latency : Nat) (wp : WanPath) :
    List RequestHistoryItem × Nat × WanPath :=
  if inReVerb ≠ Verb.VERB_NOP then
    requestHistoryLoop remoteAddr inRePacketId inReVerb now hist latency wp
  else
    (hist, latency, wp)

/-- Lines 114-115: the probe to an address the path does not record. -/
def probeStep (r : RuntimeEnvironment) (wp : WanPath) (localPort : Nat)
    (remoteAddr : InetAddress) : RuntimeEnvironment :=
  if (!wp.fixed) && decide (wp.addr ≠ remoteAddr) then
    (r.invoke (Event.sendPROBE localPort remoteAddr)).2
  else
    r

/-- Lines 80-115: the body of `if (!hops)`. -/
def directStep (K : Headers) (r : RuntimeEnvironment) (self : Peer) (localPort : Nat)
    (remoteAddr : InetAddress) (inRePacketId : Nat) (inReVerb : Verb) (now : Nat) :
    Peer × RuntimeEnvironment :=
  let a := announceStep K r self now
  let wp := receivedPath K (selectedPath a.1 remoteAddr) localPort now
  let res := replyStep remoteAddr inRePacketId inReVerb now a.1._requestHistory a.1._latency wp
  (storeSelectedPath { a.1 with _latency := res.2.1, _requestHistory := res.1 } remoteAddr res.2.2,
   probeStep a.2 res.2.2 localPort remoteAddr)

/-- Lines 118-122: the traffic timestamps. -/
def frameStep (self : Peer) (verb : Verb) (now : Nat) : Peer :=
  if verb = Verb.VERB_FRAME then { self with _lastUnicastFrame := now }
  else if verb = Verb.VERB_MULTICAST_FRAME then { self with _lastMulticastFrame := now }
  else self

/-- `Peer::onReceive`. -/
def Peer.onReceive (K : Headers) (r : RuntimeEnvironment) (self : Peer) (localPort : Nat)
    (remoteAddr : InetAddress) (hops : Nat) (packetId : Nat) (verb : Verb)
    (inRePacketId : Nat) (inReVerb : Verb) (now : Nat) : Peer × RuntimeEnvironment :=
  let d :=
    if hops = 0 then directStep K r self localPort remoteAddr inRePacketId inReVerb now
    else (self, r)
  (frameStep d.1 verb now, d.2)

/-! ## `Peer::send`, `Peer::sendFirewallOpener`, `Peer::sendPing` -/

/-- Lines 134-141 of `Peer::send`: the IPv4 attempt and the final `return Demarc::NULL_PORT`. -/
def sendV4 (K : Headers) (r : RuntimeEnvironment) (self : Peer) (data : List Nat) (len : Nat)
    (now : Nat) : Nat × Peer × RuntimeEnvironment :=
  if self._ipv4p.addr.toBool then
    let c := r.invoke (Event.demarcSend self._ipv4p.localPort self._ipv4p.addr data len (-1))
    if c.1 then
      (self._ipv4p.localPort, { self with _ipv4p := { self._ipv4p with lastSend := now } }, c.2)
    else
      (K.NULL_PORT, self, c.2)
  else
    (K.NULL_PORT, self, r)

/-- The condition of line 127. -/
def prefersV6 (K : Headers) (self : Peer) (now : Nat) : Bool :=
  K.isActive self._ipv6p now || (!self._ipv4p.addr.toBool && self._ipv6p.addr.toBool)

/-- `Peer::send`: the returned port, the peer afterwards, and the environment afterwards. -/
def Peer.send (K : Headers) (r : RuntimeEnvironment) (self : Peer) (data : List Nat) (len : Nat)
    (now : Nat) : Nat × Peer × RuntimeEnvironment :=
  if prefersV6 K self now then
    let c := r.invoke (Event.demarcSend self._ipv6p.localPort self._ipv6p.addr data len (-1))
    if c.1 then
      (self._ipv6p.localPort, { self with _ipv6p := { self._ipv6p with lastSend := now } }, c.2)
    else
      sendV4 K c.2 self data len now
  else
    sendV4 K r self data len now

/-- `Peer::sendFirewallOpener`: the result `sent`, the peer and the environment afterwards.
The payload `"\0"` with length 1 is the single byte `0`. -/
def Peer.sendFirewallOpener (K : Headers) (r : RuntimeEnvironment) (self : Peer) (now : Nat) :
    Bool × Peer × RuntimeEnvironment :=
  let s4 : Bool × Peer × RuntimeEnvironment :=
    if self._ipv4p.addr.toBool then
      let c := r.invoke
        (Event.demarcSend self._ipv4p.localPort self._ipv4p.addr [0] 1 K.ZT_FIREWALL_OPENER_HOPS)
      if c.1 then
        (true, { self with _ipv4p := { self._ipv4p with lastFirewallOpener := now } }, c.2)
      else (false, self, c.2)
    else (false, self, r)
  let p := s4.2.1
  if p._ipv6p.addr.toBool then
    let c := s4.2.2.invoke
      (Event.demarcSend p._ipv6p.localPort p._ipv6p.addr [0] 1 K.ZT_FIREWALL_OPENER_HOPS)
    if c.1 then
      (true, { p with _ipv6p := { p._ipv6p with lastFirewallOpener := now } }, c.2)
    else (s4.1, p, c.2)
  else s4

/-- `Peer::sendPing`. -/
def Peer.sendPing (r : RuntimeEnvironment) (self : Peer) (now : Nat) :
    Bool × Peer × RuntimeEnvironment :=
  let s4 : Bool × Peer × RuntimeEnvironment :=
    if self._ipv4p.addr.toBool then
      let c := r.invoke (Event.sendHELLO self._ipv4p.localPort self._ipv4p.addr)
      if c.1 then
        (true, { self with _ipv4p := { self._ipv4p with lastSend := now } }, c.2)
      else (false, self, c.2)
    else (false, self, r)
  let p := s4.2.1
  if p._ipv6p.addr.toBool then
    let c := s4.2.2.invoke (Event.sendHELLO p._ipv6p.localPort p._ipv6p.addr)
    if c.1 then
      (true, { p with _ipv6p := { p._ipv6p with lastSend := now } }, c.2)
    else (s4.1, p, c.2)
  else s4

/-! ## `Peer::setPathAddress`, `Peer::clearFixedFlag` -/

/-- `Peer::setPathAddress`. -/
def Peer.setPathAddress (self : Peer) (addr : InetAddress) (fixed : Bool) : Peer :=
  if addr.isV4 then { self with _ipv4p := { self._ipv4p with addr := addr, fixed := fixed } }
  else if addr.isV6 then { self with _ipv6p := { self._ipv6p with addr := addr, fixed := fixed } }
  else self

/-- `Peer::clearFixedFlag`. -/
def Peer.clearFixedFlag (self : Peer) (t : AddressType) : Peer :=
  match t with
  | .TYPE_NULL =>
    { self with _ipv4p := { self._ipv4p with fixed := false },
                _ipv6p := { self._ipv6p with fixed := false } }
  | .TYPE_IPV4 => { self with _ipv4p := { self._ipv4p with fixed := false } }
  | .TYPE_IPV6 => { self with _ipv6p := { self._ipv6p with fixed := false } }

/-! ## Sequences of calls -/

/-- One call of the receive or send surface of a `Peer`, with its arguments. -/
inductive PeerCall where
  | onReceive (localPort : Nat) (remoteAddr : InetAddress) (hops : Nat) (packetId : Nat)
      (verb : Verb) (inRePacketId : Nat) (inReVerb : Verb) (now : Nat)
  | send (data : List Nat) (len : Nat) (now : Nat)
  | sendFirewallOpener (now : Nat)
  | sendPing (now : Nat)

/-- Perform one call on a peer and its environment. -/
def PeerCall.run (K : Headers) (st : Peer × RuntimeEnvironment) : PeerCall → Peer × RuntimeEnvironment
  | .onReceive localPort remoteAddr hops packetId verb inRePacketId inReVerb now =>
    Peer.onReceive K st.2 st.1 localPort remoteAddr hops packetId verb inRePacketId inReVerb now
  | .send data len now => (Peer.send K st.2 st.1 data len now).2
  | .sendFirewallOpener now => (Peer.sendFirewallOpener K st.2 st.1 now).2
  | .sendPing now => (Peer.sendPing st.2 st.1 now).2

/-- Perform a finite sequence of calls, first call first. -/
def runCalls (K : Headers) (st : Peer × RuntimeEnvironment) (calls : List PeerCall) :
    Peer × RuntimeEnvironment :=
  calls.foldl (PeerCall.run K) st

/-- Relation between a peer before (`p`) and after (`q`) some calls: the `fixed` flags are
the same, and a path that was fixed has the same address. -/
def PinsKept (p q : Peer) : Prop :=
  q._ipv4p.fixed = p._ipv4p.fixed ∧ q._ipv6p.fixed = p._ipv6p.fixed ∧
  (p._ipv4p.fixed = true → q._ipv4p.addr = p._ipv4p.addr) ∧
  (p._ipv6p.fixed = true → q._ipv6p.addr = p._ipv6p.addr)

/-! ## Concrete states and environments -/

/-- A path record with every field zero, no address, and not fixed. -/
def emptyPath : WanPath :=
  { lastSend := 0, lastReceive := 0, lastFirewallOpener := 0, localPort := 0,
    addr := InetAddress.null, fixed := false }

/-- A peer whose two paths are `v4` and `v6` and whose request history is `hist`; every
other field is zero. -/
def mkPeer (v4 v6 : WanPath) (hist : List RequestHistoryItem) : Peer :=
  { _ipv4p := v4, _ipv6p := v6, _lastUsed := 0, _lastUnicastFrame := 0,
    _lastMulticastFrame := 0, _lastAnnouncedTo := 0, _vMajor := 0, _vMinor := 0,
    _vRevision := 0, _latency := 0, _requestHistory := hist, _requestHistoryPtr := 0 }

/-- An environment in which no call has been made yet and every call will succeed. -/
def allSucceed : RuntimeEnvironment := { outcome := fun _ => true, calls := [] }

/-- An environment in which no call has been made yet and every call will fail. -/
def allFail : RuntimeEnvironment := { outcome := fun _ => false, calls := [] }

/-- An IPv4 path at `10.0.0.1:9993` (the address as one number), bound to local port 1. -/
def pathX (fixed : Bool) : WanPath :=
  { lastSend := 0, lastReceive := 0, lastFirewallOpener := 0, localPort := 1,
    addr := InetAddress.v4 167772161 9993, fixed := fixed }

/-- An IPv6 path at address `1`, port 9993, bound to local port 2. -/
def pathZ : WanPath :=
  { lastSend := 0, lastReceive := 0, lastFirewallOpener := 0, localPort := 2,
    addr := InetAddress.v6 1 9993, fixed := false }

/-- The IPv4 address `10.0.0.2:9993`. -/
def addrY : InetAddress := InetAddress.v4 167772162 9993

/-- A request sent at time 1 with packet id 7 and verb code 1, still awaiting its reply. -/
def pendingRequest : RequestHistoryItem := { timestamp := 1, packetId := 7, verb := Verb.other 1 }

/-- A direct correlated reply from `addrY`, then one call of each send operation. -/
def sampleCalls : List PeerCall :=
  [PeerCall.onReceive 1 addrY 0 9 (Verb.other 3) 7 (Verb.other 1) 100,
   PeerCall.send [1, 2, 3] 3 101,
   PeerCall.sendPing 102,
   PeerCall.sendFirewallOpener 103]

/-- An environment in which no call has been made yet, the first call will fail and every
later call will succeed. -/
def firstFails : RuntimeEnvironment := { outcome := fun n => decide (n ≠ 0), calls := [] }

/-- The IPv6 path `pathZ`, last heard from at time 90. -/
def pathZHeard : WanPath := { pathZ with lastReceive := 90 }

/-- The IPv4 path `pathX`, bound to the local port `0`, the value of `NULL_PORT` in
`sampleHeaders`. -/
def pathXNullPort : WanPath := { pathX false with localPort := 0 }

/-! ## Sequences of received packets -/

/-- `Filter::Rule`: the three ranges of a rule.  `R` stands for `Range<unsigned int>`, whose
header `Range.hpp` is not among the sources; its comparisons `==` and `<` are passed to the
rule operators as `req` and `rlt`. -/
structure Filter.Rule (R : Type) where
  _etherType : R
  _protocol : R
  _port : R
  deriving DecidableEq, Repr

/-- `Rule::operator==`. -/
def Filter.Rule.eq {R : Type} (req : R → R → Bool) (a r : Filter.Rule R) : Bool :=
  req a._etherType r._etherType && req a._protocol r._protocol && req a._port r._port

/-- `Rule::operator!=`. -/
def Filter.Rule.ne {R : Type} (req : R → R → Bool) (a r : Filter.Rule R) : Bool :=
  !(Filter.Rule.eq req a r)

/-- `Rule::operator<`. -/
def Filter.Rule.lt {R : Type} (req rlt : R → R → Bool) (a r : Filter.Rule R) : Bool :=
  if rlt a._etherType r._etherType then true
  else
    if req a._etherType r._etherType then
      if rlt a._protocol r._protocol then true
      else
        if req a._protocol r._protocol then
          if rlt a._port r._port then true else false
        else false
    else false

/-- `Rule::operator>`. -/
def Filter.Rule.gt {R : Type} (req rlt : R → R → Bool) (a r : Filter.Rule R) : Bool :=
  Filter.Rule.lt req rlt r a

/-- `Rule::operator<=`. -/
def Filter.Rule.le {R : Type} (req rlt : R → R → Bool) (a r : Filter.Rule R) : Bool :=
  !(Filter.Rule.lt req rlt r a)

/-- `Rule::operator>=`. -/
def Filter.Rule.ge {R : Type} (req rlt : R → R → Bool) (a r : Filter.Rule R) : Bool :=
  !(Filter.Rule.lt req rlt a r)

/-- The order the specification gives to rules, in its own words: the triple
(etherType, protocol, port) of `a` is lexicographically smaller than that of `b`. -/
def Filter.Rule.lexSmaller {R : Type} (req rlt : R → R → Bool) (a b : Filter.Rule R) : Prop :=
  rlt a._etherType b._etherType = true ∨
  (req a._etherType b._etherType = true ∧
    (rlt a._protocol b._protocol = true ∨
      (req a._protocol b._protocol = true ∧ rlt a._port b._port = true)))

/-- The assumption on the range comparisons: of `x < y`, `x == y`, `y < x` exactly one holds,
and `<` and `==` are transitive. -/
def StrictTotalComparison {R : Type} (req rlt : R → R → Bool) : Prop :=
  (∀ x y : R,
    (rlt x y = true ∧ req x y = false ∧ rlt y x = false) ∨
    (rlt x y = false ∧ req x y = true ∧ rlt y x = false) ∨
    (rlt x y = false ∧ req x y = false ∧ rlt y x = true)) ∧
  (∀ x y z : R, rlt x y = true → rlt y z = true → rlt x z = true) ∧
  (∀ x y z : R, req x y = true → req y z = true → req x z = true)

/-- Modelled from the spec: `Range` (declared in `Range.hpp`, absent from the sources): a pair
`(low, high)`; the pair `(0, 0)` is the "any" range. -/
structure Range where
  low : Nat
  high : Nat
  deriving DecidableEq, Repr

/-- Modelled from the spec: equality of ranges (`Range.hpp` is absent), the equality of the
numeric pairs. -/
def Range.eq (a b : Range) : Bool :=
  decide (a.low = b.low) && decide (a.high = b.high)

/-- Modelled from the spec: the order of ranges (`Range.hpp` is absent), the standard order
of numeric pairs, in which the "any" range `(0, 0)` is the least. -/
def Range.lt (a b : Range) : Bool :=
  decide (a.low < b.low) || (decide (a.low = b.low) && decide (a.high < b.high))

/-- Modelled from the spec: `matches(value)` of a range (`Range.hpp` is absent): the range is
"any", or `low <= value <= high`. -/
def Range.matchesValue (a : Range) (value : Nat) : Bool :=
  (decide (a.low = 0) && decide (a.high = 0)) ||
    (decide (a.low ≤ value) && decide (value ≤ a.high))

/-- The rule "any ethertype, any protocol, any port". -/
def ruleAny : Filter.Rule Range :=
  { _etherType := { low := 0, high := 0 }, _protocol := { low := 0, high := 0 },
    _port := { low := 0, high := 0 } }

/-- The rule "IPv4 (0x0800), TCP (6), port 80". -/
def ruleTcp80 : Filter.Rule Range :=
  { _etherType := { low := 2048, high := 2048 }, _protocol := { low := 6, high := 6 },
    _port := { low := 80, high := 80 } }

/-- The rule "IPv4 (0x0800), TCP (6), port 443". -/
def ruleTcp443 : Filter.Rule Range :=
  { _etherType := { low := 2048, high := 2048 }, _protocol := { low := 6, high := 6 },
    _port := { low := 443, high := 443 } }

/-! ## `Filter`: the chain -/

/-- `Filter::Action`. -/
inductive Filter.Action where
  | ACTION_DENY
  | ACTION_ALLOW
  | ACTION_LOG
  | ACTION_UNPARSEABLE
  deriving DecidableEq, Repr

/-- `Filter::Entry`: a rule and the action taken when it matches. -/
structure Filter.Entry (R : Type) where
  rule : Filter.Rule R
  action : Filter.Action
  deriving DecidableEq, Repr

/-- `Filter::clear` on the chain `_chain` (the lock `_chain_m` is not modelled). -/
def Filter.clear {R : Type} (_chain : List (Filter.Entry R)) : List (Filter.Entry R) := []

/-- `Filter::length`. -/
def Filter.length {R : Type} (_chain : List (Filter.Entry R)) : Nat := _chain.length

/-- Modelled from the spec: `Filter::add` (declared in `Filter.hpp`, defined in `Filter.cpp`,
which is absent): remove any existing entry with `rule == existing.rule`, then append
`(rule, action)`. -/
def Filter.add {R : Type} (req : R → R → Bool) (_chain : List (Filter.Entry R))
    (r : Filter.Rule R) (a : Filter.Action) : List (Filter.Entry R) :=
  _chain.filter (fun existing => !(Filter.Rule.eq req r existing.rule))
    ++ [{ rule := r, action := a }]

/-- Modelled from the spec: `Filter::operator()` (declared in `Filter.hpp`, defined in
`Filter.cpp`, which is absent): the entries are visited in chain order; an entry whose rule
fails with `UnparseableFrame` (`none`) or does not match is passed over; a matching entry
with action DENY or ALLOW ends the evaluation with that action; a matching LOG entry is
recorded and passed over; when the chain is exhausted the result is ALLOW.  The evaluation
of one rule against a frame, `Rule::operator()`, also of `Filter.cpp`, is the parameter
`ruleEval`. -/
def Filter.evaluate {R : Type} (ruleEval : Filter.Rule R → Nat → List Nat → Option Bool)
    (etherType : Nat) (frame : List Nat) : List (Filter.Entry R) → Filter.Action
  | [] => Filter.Action.ACTION_ALLOW
  | e :: rest =>
    match ruleEval e.rule etherType frame with
    | some true =>
      match e.action with
      | Filter.Action.ACTION_DENY => Filter.Action.ACTION_DENY
      | Filter.Action.ACTION_ALLOW => Filter.Action.ACTION_ALLOW
      | _ => Filter.evaluate ruleEval etherType frame rest
    | _ => Filter.evaluate ruleEval etherType frame rest

/-- One mutation of a filter chain. -/
inductive Filter.Mutation (R : Type) where
  | add (r : Filter.Rule R) (a : Filter.Action)
  | clear

/-- Perform one mutation. -/
def Filter.Mutation.run {R : Type} (req : R → R → Bool) (_chain : List (Filter.Entry R)) :
    Filter.Mutation R → List (Filter.Entry R)
  | .add r a => Filter.add req _chain r a
  | .clear => Filter.clear _chain

/-- The chain built from the empty chain by a sequence of mutations, first one first. -/
def Filter.build {R : Type} (req : R → R → Bool) (ms : List (Filter.Mutation R)) :
    List (Filter.Entry R) :=
  ms.foldl (Filter.Mutation.run req) []

/-- A rule evaluator for examples: a rule matches when its ethertype range matches; a rule
that constrains the protocol cannot be evaluated against an empty frame. -/
def sampleRuleEval (rule : Filter.Rule Range) (etherType : Nat) (frame : List Nat) :
    Option Bool :=
  if (!(Range.eq rule._protocol { low := 0, high := 0 })) && frame.isEmpty then none
  else some (rule._etherType.matchesValue etherType)

/-- The rule "ARP (0x0806), any protocol, any port". -/
def ruleArp : Filter.Rule Range :=
  { _etherType := { low := 2054, high := 2054 }, _protocol := { low := 0, high := 0 },
    _port := { low := 0, high := 0 } }

/-- The rule "IPv4 (0x0800), any protocol, any port". -/
def ruleIpv4 : Filter.Rule Range :=
  { _etherType := { low := 2048, high := 2048 }, _protocol := { low := 0, high := 0 },
    _port := { low := 0, high := 0 } }

/-! ## Lemmas on the request-history loop -/

theorem requestHistoryLoop_fixed (remoteAddr : InetAddress) (inRePacketId : Nat) (inReVerb : Verb)
    (now : Nat) (hist : List RequestHistoryItem) (latency : Nat) (wp : WanPath) :
    (requestHistoryLoop remoteAddr inRePacketId inReVerb now hist latency wp).2.2.fixed
      = wp.fixed := by
  induction hist with
  | nil => rfl
  | cons h rest ih =>
    unfold requestHistoryLoop
    by_cases hm : slotMatches inRePacketId inReVerb h = true
    · simp only [hm, if_true]
      cases hf : wp.fixed <;> simp [hf]
    · simp only [hm]
      exact ih

theorem requestHistoryLoop_path (remoteAddr : InetAddress) (inRePacketId : Nat) (inReVerb : Verb)
    (now : Nat) (hist : List RequestHistoryItem) (latency : Nat) (wp : WanPath) :
    (requestHistoryLoop remoteAddr inRePacketId inReVerb now hist latency wp).2.2 = wp ∨
    (wp.fixed = false ∧
      (requestHistoryLoop remoteAddr inRePacketId inReVerb now hist latency wp).2.2
        = { wp with addr := remoteAddr }) := by
  induction hist with
  | nil => exact Or.inl rfl
  | cons h rest ih =>
    unfold requestHistoryLoop
    by_cases hm : slotMatches inRePacketId inReVerb h = true
    · simp only [hm, if_true]
      cases hf : wp.fixed <;> simp
    · simp only [hm]
      exact ih

/-! ## Lemmas on the steps of `onReceive` -/

theorem announceStep_fst (K : Headers) (r : RuntimeEnvironment) (self : Peer) (now : Nat) :
    (announceStep K r self now).1 = self ∨
    (announceStep K r self now).1 = { self with _lastAnnouncedTo := now } := by
  unfold announceStep
  split
  · exact Or.inr rfl
  · exact Or.inl rfl

theorem announceStep_paths (K : Headers) (r : RuntimeEnvironment) (self : Peer) (now : Nat) :
    (announceStep K r self now).1._ipv4p = self._ipv4p ∧
    (announceStep K r self now).1._ipv6p = self._ipv6p ∧
    (announceStep K r self now).1._latency = self._latency ∧
    (announceStep K r self now).1._requestHistory = self._requestHistory := by
  rcases announceStep_fst K r self now with h | h <;> simp [h]

theorem replyStep_path (remoteAddr : InetAddress) (inRePacketId : Nat) (inReVerb : Verb)
    (now : Nat) (hist : List RequestHistoryItem) (latency : Nat) (wp : WanPath) :
    (replyStep remoteAddr inRePacketId inReVerb now hist latency wp).2.2 = wp ∨
    (wp.fixed = false ∧
      (replyStep remoteAddr inRePacketId inReVerb now hist latency wp).2.2
        = { wp with addr := remoteAddr }) := by
  unfold replyStep
  split
  · exact requestHistoryLoop_path remoteAddr inRePacketId inReVerb now hist latency wp
  · exact Or.inl rfl

theorem selectedPath_announceStep (K : Headers) (r : RuntimeEnvironment) (self : Peer)
    (now : Nat) (remoteAddr : InetAddress) :
    selectedPath (announceStep K r self now).1 remoteAddr = selectedPath self remoteAddr := by
  obtain ⟨h4, h6, -, -⟩ := announceStep_paths K r self now
  unfold selectedPath
  rw [h4, h6]

theorem storeSelectedPath_ipv4p (self : Peer) (remoteAddr : InetAddress) (wp : WanPath) :
    (storeSelectedPath self remoteAddr wp)._ipv4p = if remoteAddr.isV4 then wp else self._ipv4p := by
  unfold storeSelectedPath
  split <;> rfl

theorem storeSelectedPath_ipv6p (self : Peer) (remoteAddr : InetAddress) (wp : WanPath) :
    (storeSelectedPath self remoteAddr wp)._ipv6p = if remoteAddr.isV4 then self._ipv6p else wp := by
  unfold storeSelectedPath
  split <;> rfl

/-- The path written by the direct-packet step: the selected path with its receive
bookkeeping, and with the sender's address when a reply was matched on a non-fixed path. -/
theorem directStep_paths (K : Headers) (r : RuntimeEnvironment) (self : Peer) (localPort : Nat)
    (remoteAddr : InetAddress) (inRePacketId : Nat) (inReVerb : Verb) (now : Nat) :
    ∃ wp2 : WanPath,
      (wp2.fixed = (selectedPath self remoteAddr).fixed) ∧
      (wp2.addr = (selectedPath self remoteAddr).addr ∨
        ((selectedPath self remoteAddr).fixed = false ∧ wp2.addr = remoteAddr)) ∧
      (directStep K r self localPort remoteAddr inRePacketId inReVerb now).1._ipv4p
        = (if remoteAddr.isV4 then wp2 else self._ipv4p) ∧
      (directStep K r self localPort remoteAddr inRePacketId inReVerb now).1._ipv6p
        = (if remoteAddr.isV4 then self._ipv6p else wp2) := by
  obtain ⟨h4, h6, -, -⟩ := announceStep_paths K r self now
  refine ⟨(replyStep remoteAddr inRePacketId inReVerb now
      (announceStep K r self now).1._requestHistory (announceStep K r self now).1._latency
      (receivedPath K (selectedPath self remoteAddr) localPort now)).2.2, ?_, ?_, ?_, ?_⟩
  · rcases replyStep_path remoteAddr inRePacketId inReVerb now
      (announceStep K r self now).1._requestHistory (announceStep K r self now).1._latency
      (receivedPath K (selectedPath self remoteAddr) localPort now) with h | ⟨-, h⟩ <;>
      rw [h] <;> rfl
  · rcases replyStep_path remoteAddr inRePacketId inReVerb now
      (announceStep K r self now).1._requestHistory (announceStep K r self now).1._latency
      (receivedPath K (selectedPath self remoteAddr) localPort now) with h | ⟨hf, h⟩
    · left; rw [h]; rfl
    · right; exact ⟨hf, by rw [h]⟩
  · unfold directStep
    simp only [storeSelectedPath_ipv4p, selectedPath_announceStep, h4]
  · unfold directStep
    simp only [storeSelectedPath_ipv6p, selectedPath_announceStep, h6]

theorem frameStep_fields (self : Peer) (verb : Verb) (now : Nat) :
    (frameStep self verb now)._ipv4p = self._ipv4p ∧
    (frameStep self verb now)._ipv6p = self._ipv6p ∧
    (frameStep self verb now)._latency = self._latency ∧
    (frameStep self verb now)._requestHistory = self._requestHistory ∧
    (frameStep self verb now)._lastAnnouncedTo = self._lastAnnouncedTo := by
  unfold frameStep
  split
  · simp
  · split <;> simp

/-! ## The request-history scan: no match, first match -/

theorem slotMatches_iff (inRePacketId : Nat) (inReVerb : Verb) (h : RequestHistoryItem) :
    slotMatches inRePacketId inReVerb h = true ↔
      (h.timestamp ≠ 0 ∧ h.packetId = inRePacketId ∧ h.verb = inReVerb) := by
  unfold slotMatches
  simp [and_assoc]

theorem requestHistoryLoop_none (remoteAddr : InetAddress) (inRePacketId : Nat) (inReVerb : Verb)
    (now : Nat) (hist : List RequestHistoryItem) (latency : Nat) (wp : WanPath)
    (hno : ∀ h ∈ hist, slotMatches inRePacketId inReVerb h = false) :
    requestHistoryLoop remoteAddr inRePacketId inReVerb now hist latency wp
      = (hist, latency, wp) := by
  induction hist with
  | nil => rfl
  | cons h rest ih =>
    unfold requestHistoryLoop
    have hh : slotMatches inRePacketId inReVerb h = false := hno h (List.mem_cons_self h rest)
    rw [if_neg (by rw [hh]; decide)]
    rw [ih (fun x hx => hno x (List.mem_cons_of_mem h hx))]

theorem requestHistoryLoop_first (remoteAddr : InetAddress) (inRePacketId : Nat) (inReVerb : Verb)
    (now : Nat) (pre : List RequestHistoryItem) (h : RequestHistoryItem)
    (post : List RequestHistoryItem) (latency : Nat) (wp : WanPath)
    (hno : ∀ x ∈ pre, slotMatches inRePacketId inReVerb x = false)
    (hm : slotMatches inRePacketId inReVerb h = true) :
    requestHistoryLoop remoteAddr inRePacketId inReVerb now (pre ++ h :: post) latency wp
      = (pre ++ { h with timestamp := 0 } :: post,
         min (u32 (sub64 now h.timestamp)) 0xffff,
         if !wp.fixed then { wp with addr := remoteAddr } else wp) := by
  induction pre with
  | nil =>
    simp only [List.nil_append]
    unfold requestHistoryLoop
    rw [if_pos hm]
  | cons x rest ih =>
    simp only [List.cons_append]
    unfold requestHistoryLoop
    have hx : slotMatches inRePacketId inReVerb x = false := hno x (List.mem_cons_self x rest)
    rw [if_neg (by rw [hx]; decide)]
    rw [ih (fun y hy => hno y (List.mem_cons_of_mem x hy))]

/-- A history with a matching slot splits at its first matching slot. -/
theorem exists_first_match (inRePacketId : Nat) (inReVerb : Verb)
    (hist : List RequestHistoryItem)
    (hex : ∃ h ∈ hist, slotMatches inRePacketId inReVerb h = true) :
    ∃ pre h post, hist = pre ++ h :: post ∧
      (∀ x ∈ pre, slotMatches inRePacketId inReVerb x = false) ∧
      slotMatches inRePacketId inReVerb h = true := by
  induction hist with
  | nil =>
    obtain ⟨h, hmem, -⟩ := hex
    exact absurd hmem (List.not_mem_nil h)
  | cons x rest ih =>
    by_cases hx : slotMatches inRePacketId inReVerb x = true
    · exact ⟨[], x, rest, rfl, fun y hy => absurd hy (List.not_mem_nil y), hx⟩
    · have hrest : ∃ h ∈ rest, slotMatches inRePacketId inReVerb h = true := by
        obtain ⟨h, hmem, hm⟩ := hex
        rcases List.mem_cons.mp hmem with e | hmem
        · rw [e] at hm; exact absurd hm hx
        · exact ⟨h, hmem, hm⟩
      obtain ⟨pre, h, post, e, hno, hm⟩ := ih hrest
      refine ⟨x :: pre, h, post, by rw [e]; rfl, ?_, hm⟩
      intro y hy
      rcases List.mem_cons.mp hy with e | hy
      · rw [e]; simpa using hx
      · exact hno y hy

theorem selectedPath_storeSelectedPath (self : Peer) (remoteAddr : InetAddress) (wp : WanPath) :
    selectedPath (storeSelectedPath self remoteAddr wp) remoteAddr = wp := by
  unfold selectedPath storeSelectedPath
  split <;> rfl

theorem selectedPath_frameStep (self : Peer) (verb : Verb) (now : Nat)
    (remoteAddr : InetAddress) :
    selectedPath (frameStep self verb now) remoteAddr = selectedPath self remoteAddr := by
  obtain ⟨e4, e6, -⟩ := frameStep_fields self verb now
  unfold selectedPath
  rw [e4, e6]

theorem storeSelectedPath_fields (self : Peer) (remoteAddr : InetAddress) (wp : WanPath) :
    (storeSelectedPath self remoteAddr wp)._latency = self._latency ∧
    (storeSelectedPath self remoteAddr wp)._requestHistory = self._requestHistory ∧
    (storeSelectedPath self remoteAddr wp)._lastAnnouncedTo = self._lastAnnouncedTo := by
  unfold storeSelectedPath
  split <;> exact ⟨rfl, rfl, rfl⟩

theorem announceStep_calls (K : Headers) (r : RuntimeEnvironment) (self : Peer) (now : Nat) :
    (announceStep K r self now).2.calls
      = r.calls ++ (if sub64 now self._lastAnnouncedTo ≥ announceInterval K
          then [Event.announceMulticastGroups] else []) := by
  unfold announceStep
  split
  · rfl
  · simp

/-- The direct-packet step in terms of what the reply scan returned. -/
theorem directStep_eq (K : Headers) (r : RuntimeEnvironment) (self : Peer) (localPort : Nat)
    (remoteAddr : InetAddress) (inRePacketId : Nat) (inReVerb : Verb) (now : Nat)
    (res : List RequestHistoryItem × Nat × WanPath)
    (hres : replyStep remoteAddr inRePacketId inReVerb now self._requestHistory self._latency
      (receivedPath K (selectedPath self remoteAddr) localPort now) = res) :
    selectedPath (directStep K r self localPort remoteAddr inRePacketId inReVerb now).1 remoteAddr
        = res.2.2 ∧
    (directStep K r self localPort remoteAddr inRePacketId inReVerb now).1._latency = res.2.1 ∧
    (directStep K r self localPort remoteAddr inRePacketId inReVerb now).1._requestHistory
        = res.1 ∧
    (directStep K r self localPort remoteAddr inRePacketId inReVerb now).2
        = probeStep (announceStep K r self now).2 res.2.2 localPort remoteAddr := by
  obtain ⟨-, -, hl, hh⟩ := announceStep_paths K r self now
  unfold directStep
  simp only [selectedPath_storeSelectedPath, selectedPath_announceStep, hl, hh, hres]
  obtain ⟨e1, e2, -⟩ := storeSelectedPath_fields
    { (announceStep K r self now).1 with _latency := res.2.1, _requestHistory := res.1 }
    remoteAddr res.2.2
  rw [e1, e2]
  exact ⟨trivial, rfl, rfl, trivial⟩

theorem onReceive_direct (K : Headers) (r : RuntimeEnvironment) (self : Peer) (localPort : Nat)
    (remoteAddr : InetAddress) (packetId : Nat) (verb : Verb) (inRePacketId : Nat)
    (inReVerb : Verb) (now : Nat) :
    Peer.onReceive K r self localPort remoteAddr 0 packetId verb inRePacketId inReVerb now
      = (frameStep (directStep K r self localPort remoteAddr inRePacketId inReVerb now).1 verb now,
         (directStep K r self localPort remoteAddr inRePacketId inReVerb now).2) := by
  unfold Peer.onReceive
  rw [if_pos rfl]

theorem replyStep_unsolicited (remoteAddr : InetAddress) (inRePacketId : Nat) (inReVerb : Verb)
    (now : Nat) (hist : List RequestHistoryItem) (latency : Nat) (wp : WanPath)
    (hun : inReVerb = Verb.VERB_NOP ∨
      ∀ h ∈ hist, h.timestamp ≠ 0 → ¬ (h.packetId = inRePacketId ∧ h.verb = inReVerb)) :
    replyStep remoteAddr inRePacketId inReVerb now hist latency wp = (hist, latency, wp) := by
  unfold replyStep
  rcases hun with hv | hno
  · rw [if_neg (fun hc => hc hv)]
  · split
    · apply requestHistoryLoop_none
      intro h hmem
      cases hs : slotMatches inRePacketId inReVerb h
      · rfl
      · obtain ⟨h1, h2, h3⟩ := (slotMatches_iff inRePacketId inReVerb h).mp hs
        exact absurd ⟨h2, h3⟩ (hno h hmem h1)
    · rfl

theorem replyStep_first (remoteAddr : InetAddress) (inRePacketId : Nat) (inReVerb : Verb)
    (now : Nat) (pre : List RequestHistoryItem) (h : RequestHistoryItem)
    (post : List RequestHistoryItem) (latency : Nat) (wp : WanPath)
    (hv : inReVerb ≠ Verb.VERB_NOP)
    (hno : ∀ x ∈ pre, slotMatches inRePacketId inReVerb x = false)
    (hm : slotMatches inRePacketId inReVerb h = true) :
    replyStep remoteAddr inRePacketId inReVerb now (pre ++ h :: post) latency wp
      = (pre ++ { h with timestamp := 0 } :: post,
         min (u32 (sub64 now h.timestamp)) 0xffff,
         if !wp.fixed then { wp with addr := remoteAddr } else wp) := by
  unfold replyStep
  rw [if_pos hv]
  exact requestHistoryLoop_first remoteAddr inRePacketId inReVerb now pre h post latency wp hno hm

/-! ## Pinned paths across calls -/

theorem PinsKept.refl (p : Peer) : PinsKept p p :=
  ⟨rfl, rfl, fun _ => rfl, fun _ => rfl⟩

theorem PinsKept.trans {p q s : Peer} (h1 : PinsKept p q) (h2 : PinsKept q s) : PinsKept p s := by
  obtain ⟨a1, a2, a3, a4⟩ := h1
  obtain ⟨b1, b2, b3, b4⟩ := h2
  refine ⟨b1.trans a1, b2.trans a2, fun h => ?_, fun h => ?_⟩
  · rw [b3 (a1.trans h), a3 h]
  · rw [b4 (a2.trans h), a4 h]

theorem PinsKept.of_paths_eq {p q : Peer} (h4 : q._ipv4p.addr = p._ipv4p.addr)
    (f4 : q._ipv4p.fixed = p._ipv4p.fixed) (h6 : q._ipv6p.addr = p._ipv6p.addr)
    (f6 : q._ipv6p.fixed = p._ipv6p.fixed) : PinsKept p q :=
  ⟨f4, f6, fun _ => h4, fun _ => h6⟩

theorem frameStep_pinsKept (self : Peer) (verb : Verb) (now : Nat) :
    PinsKept self (frameStep self verb now) := by
  obtain ⟨e4, e6, -⟩ := frameStep_fields self verb now
  exact PinsKept.of_paths_eq (by rw [e4]) (by rw [e4]) (by rw [e6]) (by rw [e6])

theorem directStep_pinsKept (K : Headers) (r : RuntimeEnvironment) (self : Peer)
    (localPort : Nat) (remoteAddr : InetAddress) (inRePacketId : Nat) (inReVerb : Verb)
    (now : Nat) :
    PinsKept self (directStep K r self localPort remoteAddr inRePacketId inReVerb now).1 := by
  obtain ⟨wp2, hf, ha, h4, h6⟩ :=
    directStep_paths K r self localPort remoteAddr inRePacketId inReVerb now
  unfold selectedPath at hf ha
  by_cases hv : remoteAddr.isV4 = true
  · rw [if_pos hv] at hf ha h4 h6
    refine ⟨by rw [h4, hf], by rw [h6], fun h => ?_, fun _ => by rw [h6]⟩
    rw [h4]
    rcases ha with ha | ⟨hn, -⟩
    · exact ha
    · rw [h] at hn; exact absurd hn (by decide)
  · rw [if_neg hv] at hf ha h4 h6
    refine ⟨by rw [h4], by rw [h6, hf], fun _ => by rw [h4], fun h => ?_⟩
    rw [h6]
    rcases ha with ha | ⟨hn, -⟩
    · exact ha
    · rw [h] at hn; exact absurd hn (by decide)

theorem onReceive_pinsKept (K : Headers) (r : RuntimeEnvironment) (self : Peer) (localPort : Nat)
    (remoteAddr : InetAddress) (hops : Nat) (packetId : Nat) (verb : Verb)
    (inRePacketId : Nat) (inReVerb : Verb) (now : Nat) :
    PinsKept self
      (Peer.onReceive K r self localPort remoteAddr hops packetId verb inRePacketId inReVerb now).1 := by
  unfold Peer.onReceive
  refine PinsKept.trans ?_ (frameStep_pinsKept _ verb now)
  by_cases hh : hops = 0
  · rw [if_pos hh]
    exact directStep_pinsKept K r self localPort remoteAddr inRePacketId inReVerb now
  · rw [if_neg hh]
    exact PinsKept.refl self

theorem sendV4_pinsKept (K : Headers) (r : RuntimeEnvironment) (self : Peer) (data : List Nat)
    (len : Nat) (now : Nat) : PinsKept self (sendV4 K r self data len now).2.1 := by
  unfold sendV4
  by_cases h4 : self._ipv4p.addr.toBool = true <;>
    cases ho4 : r.outcome r.calls.length <;>
    simp [h4, ho4, RuntimeEnvironment.invoke, PinsKept]

theorem send_pinsKept (K : Headers) (r : RuntimeEnvironment) (self : Peer) (data : List Nat)
    (len : Nat) (now : Nat) : PinsKept self (Peer.send K r self data len now).2.1 := by
  unfold Peer.send
  by_cases hp : prefersV6 K self now = true
  · rw [if_pos hp]
    cases ho : r.outcome r.calls.length
    · simp only [RuntimeEnvironment.invoke, ho]
      exact sendV4_pinsKept K _ self data len now
    · simp only [RuntimeEnvironment.invoke, ho, if_true]
      exact PinsKept.of_paths_eq rfl rfl rfl rfl
  · rw [if_neg hp]
    exact sendV4_pinsKept K r self data len now

theorem sendFirewallOpener_pinsKept (K : Headers) (r : RuntimeEnvironment) (self : Peer)
    (now : Nat) : PinsKept self (Peer.sendFirewallOpener K r self now).2.1 := by
  unfold Peer.sendFirewallOpener
  by_cases h4 : self._ipv4p.addr.toBool = true <;>
    by_cases h6 : self._ipv6p.addr.toBool = true <;>
    cases ho4 : r.outcome r.calls.length <;>
    cases ho6 : r.outcome (r.calls.length + 1) <;>
    simp [h4, h6, ho4, ho6, RuntimeEnvironment.invoke, PinsKept]

theorem sendPing_pinsKept (r : RuntimeEnvironment) (self : Peer)
    (now : Nat) : PinsKept self (Peer.sendPing r self now).2.1 := by
  unfold Peer.sendPing
  by_cases h4 : self._ipv4p.addr.toBool = true <;>
    by_cases h6 : self._ipv6p.addr.toBool = true <;>
    cases ho4 : r.outcome r.calls.length <;>
    cases ho6 : r.outcome (r.calls.length + 1) <;>
    simp [h4, h6, ho4, ho6, RuntimeEnvironment.invoke, PinsKept]

theorem run_pinsKept (K : Headers) (st : Peer × RuntimeEnvironment) (c : PeerCall) :
    PinsKept st.1 (PeerCall.run K st c).1 := by
  cases c with
  | onReceive localPort remoteAddr hops packetId verb inRePacketId inReVerb now =>
    exact onReceive_pinsKept K st.2 st.1 localPort remoteAddr hops packetId verb inRePacketId
      inReVerb now
  | send data len now => exact send_pinsKept K st.2 st.1 data len now
  | sendFirewallOpener now => exact sendFirewallOpener_pinsKept K st.2 st.1 now
  | sendPing now => exact sendPing_pinsKept st.2 st.1 now

theorem runCalls_pinsKept (K : Headers) (calls : List PeerCall) :
    ∀ st : Peer × RuntimeEnvironment, PinsKept st.1 (runCalls K st calls).1 := by
  induction calls with
  | nil => intro st; exact PinsKept.refl st.1
  | cons c rest ih =>
    intro st
    have h := ih (PeerCall.run K st c)
    exact PinsKept.trans (run_pinsKept K st c) h

/-! ## The latency estimate across calls -/

theorem requestHistoryLoop_latency (remoteAddr : InetAddress) (inRePacketId : Nat)
    (inReVerb : Verb) (now : Nat) (hist : List RequestHistoryItem) (latency : Nat)
    (wp : WanPath) :
    (requestHistoryLoop remoteAddr inRePacketId inReVerb now hist latency wp).2.1 = latency ∨
    (requestHistoryLoop remoteAddr inRePacketId inReVerb now hist latency wp).2.1 ≤ 0xffff := by
  induction hist with
  | nil => exact Or.inl rfl
  | cons h rest ih =>
    unfold requestHistoryLoop
    by_cases hm : slotMatches inRePacketId inReVerb h = true
    · rw [if_pos hm]
      exact Or.inr (Nat.min_le_right _ _)
    · rw [if_neg hm]
      exact ih

theorem replyStep_latency (remoteAddr : InetAddress) (inRePacketId : Nat)
    (inReVerb : Verb) (now : Nat) (hist : List RequestHistoryItem) (latency : Nat)
    (wp : WanPath) :
    (replyStep remoteAddr inRePacketId inReVerb now hist latency wp).2.1 = latency ∨
    (replyStep remoteAddr inRePacketId inReVerb now hist latency wp).2.1 ≤ 0xffff := by
  unfold replyStep
  split
  · exact requestHistoryLoop_latency remoteAddr inRePacketId inReVerb now hist latency wp
  · exact Or.inl rfl

theorem onReceive_latency (K : Headers) (r : RuntimeEnvironment) (self : Peer) (localPort : Nat)
    (remoteAddr : InetAddress) (hops : Nat) (packetId : Nat) (verb : Verb)
    (inRePacketId : Nat) (inReVerb : Verb) (now : Nat) :
    (Peer.onReceive K r self localPort remoteAddr hops packetId verb inRePacketId inReVerb
        now).1._latency = self._latency ∨
    (Peer.onReceive K r self localPort remoteAddr hops packetId verb inRePacketId inReVerb
        now).1._latency ≤ 0xffff := by
  unfold Peer.onReceive
  obtain ⟨-, -, fl, -⟩ := frameStep_fields
    (if hops = 0 then directStep K r self localPort remoteAddr inRePacketId inReVerb now
      else (self, r)).1 verb now
  rw [fl]
  by_cases hh : hops = 0
  · rw [if_pos hh]
    obtain ⟨-, d2, -, -⟩ := directStep_eq K r self localPort remoteAddr inRePacketId inReVerb
      now _ rfl
    rw [d2]
    exact replyStep_latency _ _ _ _ _ _ _
  · rw [if_neg hh]
    exact Or.inl rfl

theorem sendV4_latency (K : Headers) (r : RuntimeEnvironment) (self : Peer) (data : List Nat)
    (len : Nat) (now : Nat) : (sendV4 K r self data len now).2.1._latency = self._latency := by
  unfold sendV4
  by_cases h4 : self._ipv4p.addr.toBool = true <;>
    cases ho4 : r.outcome r.calls.length <;>
    simp [h4, ho4, RuntimeEnvironment.invoke]

theorem send_latency (K : Headers) (r : RuntimeEnvironment) (self : Peer) (data : List Nat)
    (len : Nat) (now : Nat) : (Peer.send K r self data len now).2.1._latency = self._latency := by
  unfold Peer.send
  by_cases hp : prefersV6 K self now = true
  · rw [if_pos hp]
    cases ho : r.outcome r.calls.length
    · simp only [RuntimeEnvironment.invoke, ho]
      exact sendV4_latency K _ self data len now
    · simp only [RuntimeEnvironment.invoke, ho, if_true]
  · rw [if_neg hp]
    exact sendV4_latency K r self data len now

theorem sendFirewallOpener_latency (K : Headers) (r : RuntimeEnvironment) (self : Peer)
    (now : Nat) : (Peer.sendFirewallOpener K r self now).2.1._latency = self._latency := by
  unfold Peer.sendFirewallOpener
  by_cases h4 : self._ipv4p.addr.toBool = true <;>
    by_cases h6 : self._ipv6p.addr.toBool = true <;>
    cases ho4 : r.outcome r.calls.length <;>
    cases ho6 : r.outcome (r.calls.length + 1) <;>
    simp [h4, h6, ho4, ho6, RuntimeEnvironment.invoke]

theorem sendPing_latency (r : RuntimeEnvironment) (self : Peer)
    (now : Nat) : (Peer.sendPing r self now).2.1._latency = self._latency := by
  unfold Peer.sendPing
  by_cases h4 : self._ipv4p.addr.toBool = true <;>
    by_cases h6 : self._ipv6p.addr.toBool = true <;>
    cases ho4 : r.outcome r.calls.length <;>
    cases ho6 : r.outcome (r.calls.length + 1) <;>
    simp [h4, h6, ho4, ho6, RuntimeEnvironment.invoke]

theorem run_latency (K : Headers) (st : Peer × RuntimeEnvironment) (c : PeerCall)
    (h : st.1._latency ≤ 0xffff) : (PeerCall.run K st c).1._latency ≤ 0xffff := by
  cases c with
  | onReceive localPort remoteAddr hops packetId verb inRePacketId inReVerb now =>
    rcases onReceive_latency K st.2 st.1 localPort remoteAddr hops packetId verb inRePacketId
      inReVerb now with e | e
    · exact e.le.trans h
    · exact e
  | send data len now => exact (send_latency K st.2 st.1 data len now).le.trans h
  | sendFirewallOpener now => exact (sendFirewallOpener_latency K st.2 st.1 now).le.trans h
  | sendPing now => exact (sendPing_latency st.2 st.1 now).le.trans h

theorem runCalls_latency (K : Headers) (calls : List PeerCall) :
    ∀ st : Peer × RuntimeEnvironment, st.1._latency ≤ 0xffff →
      (runCalls K st calls).1._latency ≤ 0xffff := by
  induction calls with
  | nil => intro st h; exact h
  | cons c rest ih =>
    intro st h
    exact ih (PeerCall.run K st c) (run_latency K st c h)

/-! ## The outcomes of `send` -/

/-- The four ways `send` can end: success on IPv6 at the first attempt, success on IPv4 at
the first attempt, success on IPv4 after a failed IPv6 attempt, or no success at all. -/
theorem send_outcome (K : Headers) (r : RuntimeEnvironment) (p : Peer) (data : List Nat)
    (len : Nat) (now : Nat) :
    ((Peer.send K r p data len now).2.2.calls
        = r.calls ++ [Event.demarcSend p._ipv6p.localPort p._ipv6p.addr data len (-1)] ∧
      r.outcome r.calls.length = true ∧
      (Peer.send K r p data len now).1 = p._ipv6p.localPort ∧
      (Peer.send K r p data len now).2.1
        = { p with _ipv6p := { p._ipv6p with lastSend := now } }) ∨
    ((Peer.send K r p data len now).2.2.calls
        = r.calls ++ [Event.demarcSend p._ipv4p.localPort p._ipv4p.addr data len (-1)] ∧
      r.outcome r.calls.length = true ∧
      (Peer.send K r p data len now).1 = p._ipv4p.localPort ∧
      (Peer.send K r p data len now).2.1
        = { p with _ipv4p := { p._ipv4p with lastSend := now } }) ∨
    ((Peer.send K r p data len now).2.2.calls
        = r.calls ++ [Event.demarcSend p._ipv6p.localPort p._ipv6p.addr data len (-1),
                      Event.demarcSend p._ipv4p.localPort p._ipv4p.addr data len (-1)] ∧
      r.outcome r.calls.length = false ∧ r.outcome (r.calls.length + 1) = true ∧
      (Peer.send K r p data len now).1 = p._ipv4p.localPort ∧
      (Peer.send K r p data len now).2.1
        = { p with _ipv4p := { p._ipv4p with lastSend := now } }) ∨
    ((∀ i, i < (Peer.send K r p data len now).2.2.calls.length - r.calls.length →
        r.outcome (r.calls.length + i) = false) ∧
      (Peer.send K r p data len now).1 = K.NULL_PORT ∧
      (Peer.send K r p data len now).2.1 = p) := by
  unfold Peer.send sendV4
  by_cases hp : prefersV6 K p now = true <;>
    by_cases h4 : p._ipv4p.addr.toBool = true <;>
    cases ho1 : r.outcome r.calls.length <;>
    cases ho2 : r.outcome (r.calls.length + 1) <;>
    simp [hp, h4, ho1, ho2, RuntimeEnvironment.invoke]
  all_goals
    intro i hi
    interval_cases i
    all_goals simp [ho1, ho2]

/-- The calls `send` makes: the IPv6 path if it is preferred, then the IPv4 path if it has an
address and the IPv6 attempt, if any, failed. -/
theorem send_calls (K : Headers) (r : RuntimeEnvironment) (p : Peer) (data : List Nat)
    (len : Nat) (now : Nat) :
    (prefersV6 K p now = true → r.outcome r.calls.length = false →
      (Peer.send K r p data len now).2.2.calls
        = r.calls ++ Event.demarcSend p._ipv6p.localPort p._ipv6p.addr data len (-1) ::
            (if p._ipv4p.addr.toBool
              then [Event.demarcSend p._ipv4p.localPort p._ipv4p.addr data len (-1)]
              else [])) ∧
    (prefersV6 K p now = false →
      (Peer.send K r p data len now).2.2.calls
        = r.calls ++ (if p._ipv4p.addr.toBool
              then [Event.demarcSend p._ipv4p.localPort p._ipv4p.addr data len (-1)]
              else [])) := by
  unfold Peer.send sendV4
  refine ⟨fun hp ho1 => ?_, fun hp => ?_⟩
  · by_cases h4 : p._ipv4p.addr.toBool = true <;>
      cases ho2 : r.outcome (r.calls.length + 1) <;>
      simp [hp, h4, ho1, ho2, RuntimeEnvironment.invoke]
  · by_cases h4 : p._ipv4p.addr.toBool = true <;>
      cases ho1 : r.outcome r.calls.length <;>
      simp [hp, h4, ho1, RuntimeEnvironment.invoke]

/-! ## Claims -/

/-- C1. Fixed-path immutability: whatever finite sequence of `onReceive`, `send`, `sendPing`
and `sendFirewallOpener` calls is performed, with any arguments, any request history and any
transport outcomes, a path that is fixed beforehand has the same address and is still fixed
afterwards. -/
theorem fixed_path_immutable (K : Headers) (r : RuntimeEnvironment) (p : Peer)
    (calls : List PeerCall) :
    (p._ipv4p.fixed = true →
      (runCalls K (p, r) calls).1._ipv4p.addr = p._ipv4p.addr ∧
      (runCalls K (p, r) calls).1._ipv4p.fixed = true) ∧
    (p._ipv6p.fixed = true →
      (runCalls K (p, r) calls).1._ipv6p.addr = p._ipv6p.addr ∧
      (runCalls K (p, r) calls).1._ipv6p.fixed = true) := by
  obtain ⟨f4, f6, a4, a6⟩ := runCalls_pinsKept K calls (p, r)
  exact ⟨fun h => ⟨a4 h, f4.trans h⟩, fun h => ⟨a6 h, f6.trans h⟩⟩


/-- A fixed IPv4 path keeps its address through a correlated reply from another address and one call of each send operation. -/
theorem fixed_path_immutable_witness :
    (mkPeer (pathX true) pathZ [pendingRequest])._ipv4p.fixed = true ∧
    (runCalls sampleHeaders (mkPeer (pathX true) pathZ [pendingRequest], allSucceed)
        sampleCalls).1._ipv4p.addr = (mkPeer (pathX true) pathZ [pendingRequest])._ipv4p.addr ∧
    (runCalls sampleHeaders (mkPeer (pathX true) pathZ [pendingRequest], allSucceed)
        sampleCalls).1._ipv4p.fixed = true :=
  ⟨by decide,
   (fixed_path_immutable sampleHeaders allSucceed (mkPeer (pathX true) pathZ [pendingRequest])
      sampleCalls).1 (by decide)⟩

/-- C2. Reply-gated learning, unsolicited half: a direct packet from an address `Y` that the
non-fixed selected path does not record, and that answers no request in the history (its
in-reply-to verb is the no-op verb, or no slot in use has its in-reply-to id and verb),
leaves the path's address, the latency and the whole request history as they were, and a
probe to `Y` is the last call made. -/
theorem unsolicited_packet_not_learned (K : Headers) (r : RuntimeEnvironment) (p : Peer)
    (localPort : Nat) (Y : InetAddress) (packetId : Nat) (verb : Verb) (inRePacketId : Nat)
    (inReVerb : Verb) (now : Nat)
    (hfix : (selectedPath p Y).fixed = false)
    (hne : Y ≠ (selectedPath p Y).addr)
    (hun : inReVerb = Verb.VERB_NOP ∨
      ∀ h ∈ p._requestHistory, h.timestamp ≠ 0 →
        ¬ (h.packetId = inRePacketId ∧ h.verb = inReVerb)) :
    (selectedPath
        (Peer.onReceive K r p localPort Y 0 packetId verb inRePacketId inReVerb now).1 Y).addr
      = (selectedPath p Y).addr ∧
    (Peer.onReceive K r p localPort Y 0 packetId verb inRePacketId inReVerb now).1._latency
      = p._latency ∧
    (Peer.onReceive K r p localPort Y 0 packetId verb inRePacketId inReVerb now).1._requestHistory
      = p._requestHistory ∧
    (Peer.onReceive K r p localPort Y 0 packetId verb inRePacketId inReVerb now).2.calls
      = r.calls ++ (if sub64 now p._lastAnnouncedTo ≥ announceInterval K
            then [Event.announceMulticastGroups] else [])
          ++ [Event.sendPROBE localPort Y] := by
  rw [onReceive_direct]
  obtain ⟨-, -, fl, fh, -⟩ := frameStep_fields
    (directStep K r p localPort Y inRePacketId inReVerb now).1 verb now
  obtain ⟨d1, d2, d3, d4⟩ := directStep_eq K r p localPort Y inRePacketId inReVerb now _
    (replyStep_unsolicited Y inRePacketId inReVerb now p._requestHistory p._latency
      (receivedPath K (selectedPath p Y) localPort now) hun)
  simp only [selectedPath_frameStep, fl, fh, d1, d2, d3, d4]
  refine ⟨rfl, trivial, trivial, ?_⟩
  unfold probeStep
  have hcond : ((!(receivedPath K (selectedPath p Y) localPort now).fixed) &&
      decide ((receivedPath K (selectedPath p Y) localPort now).addr ≠ Y)) = true := by
    have e1 : (receivedPath K (selectedPath p Y) localPort now).fixed = false := hfix
    have e2 : (receivedPath K (selectedPath p Y) localPort now).addr ≠ Y := fun hc => hne hc.symm
    rw [e1]
    simpa using e2
  rw [if_pos hcond]
  unfold RuntimeEnvironment.invoke
  simp only [announceStep_calls]


/-- An unsolicited direct packet from `addrY` (in-reply-to id 8 matches no slot) is answered by a probe and learns nothing. -/
theorem unsolicited_packet_not_learned_witness :
    (Peer.onReceive sampleHeaders allSucceed (mkPeer (pathX false) emptyPath [pendingRequest])
        1 addrY 0 9 (Verb.other 3) 8 (Verb.other 1) 50).1._ipv4p.addr
      = InetAddress.v4 167772161 9993 ∧
    (Peer.onReceive sampleHeaders allSucceed (mkPeer (pathX false) emptyPath [pendingRequest])
        1 addrY 0 9 (Verb.other 3) 8 (Verb.other 1) 50).1._latency = 0 ∧
    (Peer.onReceive sampleHeaders allSucceed (mkPeer (pathX false) emptyPath [pendingRequest])
        1 addrY 0 9 (Verb.other 3) 8 (Verb.other 1) 50).1._requestHistory = [pendingRequest] ∧
    (Peer.onReceive sampleHeaders allSucceed (mkPeer (pathX false) emptyPath [pendingRequest])
        1 addrY 0 9 (Verb.other 3) 8 (Verb.other 1) 50).2.calls
      = [Event.sendPROBE 1 addrY] :=
  unsolicited_packet_not_learned sampleHeaders allSucceed
    (mkPeer (pathX false) emptyPath [pendingRequest]) 1 addrY 9 (Verb.other 3) 8 (Verb.other 1) 50
    (by decide) (by decide) (Or.inr (by decide))

/-- A direct correlated reply on a path that is not fixed stores the sender's address. -/
theorem onReceive_learns_addr (K : Headers) (r : RuntimeEnvironment) (p : Peer)
    (localPort : Nat) (Y : InetAddress) (packetId : Nat) (verb : Verb) (inRePacketId : Nat)
    (inReVerb : Verb) (now : Nat)
    (hfix : (selectedPath p Y).fixed = false)
    (hv : inReVerb ≠ Verb.VERB_NOP)
    (hslot : ∃ h ∈ p._requestHistory,
      h.timestamp ≠ 0 ∧ h.packetId = inRePacketId ∧ h.verb = inReVerb) :
    (selectedPath
        (Peer.onReceive K r p localPort Y 0 packetId verb inRePacketId inReVerb now).1 Y).addr
      = Y := by
  have hex : ∃ h ∈ p._requestHistory, slotMatches inRePacketId inReVerb h = true := by
    obtain ⟨h, hmem, hm⟩ := hslot
    exact ⟨h, hmem, (slotMatches_iff inRePacketId inReVerb h).mpr hm⟩
  obtain ⟨pre, h, post, hsplit, hno, hm⟩ := exists_first_match inRePacketId inReVerb _ hex
  rw [onReceive_direct]
  have hres := replyStep_first Y inRePacketId inReVerb now pre h post p._latency
      (receivedPath K (selectedPath p Y) localPort now) hv hno hm
  rw [← hsplit] at hres
  obtain ⟨d1, -, -, -⟩ := directStep_eq K r p localPort Y inRePacketId inReVerb now _ hres
  have e1 : (receivedPath K (selectedPath p Y) localPort now).fixed = false := hfix
  simp only [selectedPath_frameStep, d1, e1]
  rfl

theorem sub64_of_le (a b : Nat) (hle : b ≤ a) (ha : a < 2 ^ 64) : sub64 a b = a - b := by
  unfold sub64
  have hb : b < 2 ^ 64 := Nat.lt_of_le_of_lt hle ha
  rw [Nat.mod_eq_of_lt ha, Nat.mod_eq_of_lt hb]
  have e : a + (2 ^ 64 - b) = (a - b) + 2 ^ 64 := by omega
  rw [e, Nat.add_mod_right]
  exact Nat.mod_eq_of_lt (by omega)

/-- The latency sample of line 95 in plain arithmetic: the 64-bit difference, its low 32
bits, and the cap. -/
theorem latency_sample_arith (now t : Nat) :
    min (u32 (sub64 now t)) 0xffff
      = min (((now % 2 ^ 64 + (2 ^ 64 - t % 2 ^ 64)) % 2 ^ 64) % 2 ^ 32) 65535 := rfl

/-- When the clock has not wrapped and the round trip fits 32 bits, the latency sample is
the round trip itself, capped. -/
theorem latency_sample_plain (now t : Nat) (hle : t ≤ now) (hnow : now < 2 ^ 64)
    (hlt : now - t < 2 ^ 32) :
    min (u32 (sub64 now t)) 0xffff = min (now - t) 65535 := by
  rw [sub64_of_le now t hle hnow]
  unfold u32
  rw [Nat.mod_eq_of_lt hlt]

/-- A direct reply on a history that splits at its first matching slot: what is stored. -/
theorem onReceive_matched (K : Headers) (r : RuntimeEnvironment) (p : Peer)
    (localPort : Nat) (Y : InetAddress) (packetId : Nat) (verb : Verb) (inRePacketId : Nat)
    (inReVerb : Verb) (now : Nat) (hv : inReVerb ≠ Verb.VERB_NOP)
    (pre : List RequestHistoryItem) (h : RequestHistoryItem) (post : List RequestHistoryItem)
    (hsplit : p._requestHistory = pre ++ h :: post)
    (hno : ∀ x ∈ pre, slotMatches inRePacketId inReVerb x = false)
    (hm : slotMatches inRePacketId inReVerb h = true) :
    (Peer.onReceive K r p localPort Y 0 packetId verb inRePacketId inReVerb now).1._latency
      = min (u32 (sub64 now h.timestamp)) 0xffff ∧
    (Peer.onReceive K r p localPort Y 0 packetId verb inRePacketId inReVerb now).1._requestHistory
      = pre ++ { h with timestamp := 0 } :: post := by
  rw [onReceive_direct]
  obtain ⟨-, -, fl, fh, -⟩ := frameStep_fields
    (directStep K r p localPort Y inRePacketId inReVerb now).1 verb now
  have hres := replyStep_first Y inRePacketId inReVerb now pre h post p._latency
      (receivedPath K (selectedPath p Y) localPort now) hv hno hm
  rw [← hsplit] at hres
  obtain ⟨-, d2, d3, -⟩ := directStep_eq K r p localPort Y inRePacketId inReVerb now _ hres
  rw [fl, fh, d2, d3]
  exact ⟨rfl, rfl⟩

/-- C3. Reply-gated learning, correlated half: when the selected path is not fixed and the
history holds a slot in use with the packet's in-reply-to id and verb (not the no-op verb), a
direct packet from `Y` sets the path's address to `Y`.  The matched slot is the first such
slot `h`: the latency becomes the 64-bit difference `now - h.timestamp`, cut to its low 32
bits and capped at 65535 (the round trip `now - h.timestamp` itself, capped, when the
clock has not wrapped and the round trip is below `2 ^ 32`); that slot's timestamp becomes 0
and no other slot changes.  No probe is sent: the only call that can be made is the
multicast announcement. -/
theorem correlated_reply_learned (K : Headers) (r : RuntimeEnvironment) (p : Peer)
    (localPort : Nat) (Y : InetAddress) (packetId : Nat) (verb : Verb) (inRePacketId : Nat)
    (inReVerb : Verb) (now : Nat)
    (hfix : (selectedPath p Y).fixed = false)
    (hv : inReVerb ≠ Verb.VERB_NOP)
    (hslot : ∃ h ∈ p._requestHistory,
      h.timestamp ≠ 0 ∧ h.packetId = inRePacketId ∧ h.verb = inReVerb) :
    (selectedPath
        (Peer.onReceive K r p localPort Y 0 packetId verb inRePacketId inReVerb now).1 Y).addr
      = Y ∧
    (∃ pre h post, p._requestHistory = pre ++ h :: post ∧
      (∀ x ∈ pre, ¬ (x.timestamp ≠ 0 ∧ x.packetId = inRePacketId ∧ x.verb = inReVerb)) ∧
      (h.timestamp ≠ 0 ∧ h.packetId = inRePacketId ∧ h.verb = inReVerb) ∧
      (Peer.onReceive K r p localPort Y 0 packetId verb inRePacketId inReVerb now).1._latency
        = min (((now % 2 ^ 64 + (2 ^ 64 - h.timestamp % 2 ^ 64)) % 2 ^ 64) % 2 ^ 32) 65535 ∧
      (Peer.onReceive K r p localPort Y 0 packetId verb inRePacketId inReVerb now).1._requestHistory
        = pre ++ { h with timestamp := 0 } :: post) ∧
    (∀ pre h post, p._requestHistory = pre ++ h :: post →
      (∀ x ∈ pre, ¬ (x.timestamp ≠ 0 ∧ x.packetId = inRePacketId ∧ x.verb = inReVerb)) →
      (h.timestamp ≠ 0 ∧ h.packetId = inRePacketId ∧ h.verb = inReVerb) →
      (Peer.onReceive K r p localPort Y 0 packetId verb inRePacketId inReVerb now).1._latency
        = min (((now % 2 ^ 64 + (2 ^ 64 - h.timestamp % 2 ^ 64)) % 2 ^ 64) % 2 ^ 32) 65535 ∧
      (h.timestamp ≤ now → now < 2 ^ 64 → now - h.timestamp < 2 ^ 32 →
        (Peer.onReceive K r p localPort Y 0 packetId verb inRePacketId inReVerb
          now).1._latency = min (now - h.timestamp) 65535) ∧
      (Peer.onReceive K r p localPort Y 0 packetId verb inRePacketId inReVerb now).1._requestHistory
        = pre ++ { h with timestamp := 0 } :: post) ∧
    (Peer.onReceive K r p localPort Y 0 packetId verb inRePacketId inReVerb now).2.calls
      = r.calls ++ (if sub64 now p._lastAnnouncedTo ≥ announceInterval K
            then [Event.announceMulticastGroups] else []) := by
  have hex : ∃ h ∈ p._requestHistory, slotMatches inRePacketId inReVerb h = true := by
    obtain ⟨h, hmem, hm⟩ := hslot
    exact ⟨h, hmem, (slotMatches_iff inRePacketId inReVerb h).mpr hm⟩
  have hall : ∀ pre h post, p._requestHistory = pre ++ h :: post →
      (∀ x ∈ pre, ¬ (x.timestamp ≠ 0 ∧ x.packetId = inRePacketId ∧ x.verb = inReVerb)) →
      (h.timestamp ≠ 0 ∧ h.packetId = inRePacketId ∧ h.verb = inReVerb) →
      (Peer.onReceive K r p localPort Y 0 packetId verb inRePacketId inReVerb now).1._latency
        = min (u32 (sub64 now h.timestamp)) 0xffff ∧
      (Peer.onReceive K r p localPort Y 0 packetId verb inRePacketId inReVerb
        now).1._requestHistory = pre ++ { h with timestamp := 0 } :: post := by
    intro pre h post hsplit hno hm
    refine onReceive_matched K r p localPort Y packetId verb inRePacketId inReVerb now hv
      pre h post hsplit ?_ ((slotMatches_iff inRePacketId inReVerb h).mpr hm)
    intro x hx
    cases hs : slotMatches inRePacketId inReVerb x
    · rfl
    · exact absurd ((slotMatches_iff inRePacketId inReVerb x).mp hs) (hno x hx)
  obtain ⟨pre, h, post, hsplit, hno, hm⟩ := exists_first_match inRePacketId inReVerb _ hex
  have hnoP : ∀ x ∈ pre,
      ¬ (x.timestamp ≠ 0 ∧ x.packetId = inRePacketId ∧ x.verb = inReVerb) := by
    intro x hx hc
    have := hno x hx
    rw [(slotMatches_iff inRePacketId inReVerb x).mpr hc] at this
    exact absurd this (by decide)
  have hmP := (slotMatches_iff inRePacketId inReVerb h).mp hm
  refine ⟨?_, ?_, ?_, ?_⟩
  · exact onReceive_learns_addr K r p localPort Y packetId verb inRePacketId inReVerb now hfix
      hv hslot
  · obtain ⟨e1, e2⟩ := hall pre h post hsplit hnoP hmP
    exact ⟨pre, h, post, hsplit, hnoP, hmP, e1.trans (latency_sample_arith now h.timestamp), e2⟩
  · intro pre2 h2 post2 hsplit2 hno2 hm2
    obtain ⟨e1, e2⟩ := hall pre2 h2 post2 hsplit2 hno2 hm2
    refine ⟨e1.trans (latency_sample_arith now h2.timestamp), ?_, e2⟩
    intro hle hnow hlt
    exact e1.trans (latency_sample_plain now h2.timestamp hle hnow hlt)
  · rw [onReceive_direct]
    have hres := replyStep_first Y inRePacketId inReVerb now pre h post p._latency
        (receivedPath K (selectedPath p Y) localPort now) hv hno hm
    rw [← hsplit] at hres
    obtain ⟨-, -, -, d4⟩ := directStep_eq K r p localPort Y inRePacketId inReVerb now _ hres
    have e1 : (receivedPath K (selectedPath p Y) localPort now).fixed = false := hfix
    rw [d4]
    simp only [e1]
    unfold probeStep
    simp [announceStep_calls]

/-- A direct reply from `addrY` at time 50 to the request pending since time 1: the IPv4 path
moves to `addrY`, the latency becomes 49, the slot is emptied, and no call is made. -/
theorem correlated_reply_learned_witness :
    (selectedPath (mkPeer (pathX false) emptyPath [pendingRequest]) addrY).fixed = false ∧
    (Peer.onReceive sampleHeaders allSucceed (mkPeer (pathX false) emptyPath [pendingRequest])
        1 addrY 0 9 (Verb.other 3) 7 (Verb.other 1) 50).1._ipv4p.addr = addrY ∧
    (Peer.onReceive sampleHeaders allSucceed (mkPeer (pathX false) emptyPath [pendingRequest])
        1 addrY 0 9 (Verb.other 3) 7 (Verb.other 1) 50).1._latency = 49 ∧
    (Peer.onReceive sampleHeaders allSucceed (mkPeer (pathX false) emptyPath [pendingRequest])
        1 addrY 0 9 (Verb.other 3) 7 (Verb.other 1) 50).1._requestHistory
      = [{ timestamp := 0, packetId := 7, verb := Verb.other 1 }] ∧
    (Peer.onReceive sampleHeaders allSucceed (mkPeer (pathX false) emptyPath [pendingRequest])
        1 addrY 0 9 (Verb.other 3) 7 (Verb.other 1) 50).2.calls = [] :=
  ⟨by decide,
   (correlated_reply_learned sampleHeaders allSucceed
      (mkPeer (pathX false) emptyPath [pendingRequest]) 1 addrY 9 (Verb.other 3) 7 (Verb.other 1)
      50 (by decide) (by decide) (by decide)).1,
   ((correlated_reply_learned sampleHeaders allSucceed
      (mkPeer (pathX false) emptyPath [pendingRequest]) 1 addrY 9 (Verb.other 3) 7 (Verb.other 1)
      50 (by decide) (by decide) (by decide)).2.2.1 [] pendingRequest [] rfl (by decide)
      (by decide)).2.1 (by decide) (by decide) (by decide),
   ((correlated_reply_learned sampleHeaders allSucceed
      (mkPeer (pathX false) emptyPath [pendingRequest]) 1 addrY 9 (Verb.other 3) 7 (Verb.other 1)
      50 (by decide) (by decide) (by decide)).2.2.1 [] pendingRequest [] rfl (by decide)
      (by decide)).2.2,
   (correlated_reply_learned sampleHeaders allSucceed
      (mkPeer (pathX false) emptyPath [pendingRequest]) 1 addrY 9 (Verb.other 3) 7 (Verb.other 1)
      50 (by decide) (by decide) (by decide)).2.2.2⟩

/-- C4 (the code at the failing input). A request recorded at time 1 is answered at time
`1 + 2 ^ 32`: the round trip `now - t` is `2 ^ 32`, whose minimum with `0xFFFF` is `0xFFFF`,
but the cast to `unsigned int` before the minimum makes the stored latency `0`. -/
theorem latency_sample_truncated_before_cap :
    (Peer.onReceive sampleHeaders allSucceed (mkPeer (pathX false) emptyPath [pendingRequest])
        1 addrY 0 9 (Verb.other 3) 7 (Verb.other 1) 4294967297).1._latency = 0 ∧
    pendingRequest.timestamp = 1 ∧
    min (4294967297 - pendingRequest.timestamp) 0xFFFF = 0xFFFF := by
  decide

/-- C5. Latency upper bound: whatever `now` and the matched slot's timestamp are (also when
`now` is the smaller one and the subtraction wraps), a direct packet answering a recorded
request leaves a latency estimate of at most `0xFFFF`; and a latency estimate that is at most
`0xFFFF` before a finite sequence of calls (of `onReceive`, and of the send operations too)
is at most `0xFFFF` after it. -/
theorem latency_at_most_cap (K : Headers) (r : RuntimeEnvironment) (p : Peer) :
    (∀ (localPort : Nat) (remoteAddr : InetAddress) (packetId : Nat) (verb : Verb)
        (inRePacketId : Nat) (inReVerb : Verb) (now : Nat),
        inReVerb ≠ Verb.VERB_NOP →
        (∃ h ∈ p._requestHistory,
          h.timestamp ≠ 0 ∧ h.packetId = inRePacketId ∧ h.verb = inReVerb) →
        (Peer.onReceive K r p localPort remoteAddr 0 packetId verb inRePacketId inReVerb
          now).1._latency ≤ 0xFFFF) ∧
    (∀ calls : List PeerCall, p._latency ≤ 0xFFFF →
        (runCalls K (p, r) calls).1._latency ≤ 0xFFFF) := by
  refine ⟨?_, fun calls h => runCalls_latency K calls (p, r) h⟩
  intro localPort remoteAddr packetId verb inRePacketId inReVerb now hv hslot
  have hex : ∃ h ∈ p._requestHistory, slotMatches inRePacketId inReVerb h = true := by
    obtain ⟨h, hmem, hm⟩ := hslot
    exact ⟨h, hmem, (slotMatches_iff inRePacketId inReVerb h).mpr hm⟩
  obtain ⟨pre, h, post, hsplit, hno, hm⟩ := exists_first_match inRePacketId inReVerb _ hex
  rw [onReceive_direct]
  obtain ⟨-, -, fl, -⟩ := frameStep_fields
    (directStep K r p localPort remoteAddr inRePacketId inReVerb now).1 verb now
  have hres := replyStep_first remoteAddr inRePacketId inReVerb now pre h post p._latency
      (receivedPath K (selectedPath p remoteAddr) localPort now) hv hno hm
  rw [← hsplit] at hres
  obtain ⟨-, d2, -, -⟩ := directStep_eq K r p localPort remoteAddr inRePacketId inReVerb now _
    hres
  rw [fl, d2]
  exact Nat.min_le_right _ _


/-- The bound holds when `now = 0` lies before the slot's timestamp 1, and after the sample call sequence. -/
theorem latency_at_most_cap_witness :
    (Peer.onReceive sampleHeaders allSucceed (mkPeer (pathX false) emptyPath [pendingRequest])
        1 addrY 0 9 (Verb.other 3) 7 (Verb.other 1) 0).1._latency ≤ 0xFFFF ∧
    (runCalls sampleHeaders (mkPeer (pathX true) pathZ [pendingRequest], allSucceed)
        sampleCalls).1._latency ≤ 0xFFFF :=
  ⟨(latency_at_most_cap sampleHeaders allSucceed
      (mkPeer (pathX false) emptyPath [pendingRequest])).1 1 addrY 9 (Verb.other 3) 7
      (Verb.other 1) 0 (by decide) (by decide),
   (latency_at_most_cap sampleHeaders allSucceed
      (mkPeer (pathX true) pathZ [pendingRequest])).2 sampleCalls (by decide)⟩

/-- C6. Relayed packets cannot affect path trust: a packet with a non-zero hop count leaves
both path records, the request history, the latency estimate and `_lastAnnouncedTo` as they
were, and makes no call to a collaborator (no announcement, no probe). -/
theorem relayed_packet_leaves_paths (K : Headers) (r : RuntimeEnvironment) (p : Peer)
    (localPort : Nat) (remoteAddr : InetAddress) (hops : Nat) (packetId : Nat) (verb : Verb)
    (inRePacketId : Nat) (inReVerb : Verb) (now : Nat) (hh : hops ≠ 0) :
    (Peer.onReceive K r p localPort remoteAddr hops packetId verb inRePacketId inReVerb
        now).1._ipv4p = p._ipv4p ∧
    (Peer.onReceive K r p localPort remoteAddr hops packetId verb inRePacketId inReVerb
        now).1._ipv6p = p._ipv6p ∧
    (Peer.onReceive K r p localPort remoteAddr hops packetId verb inRePacketId inReVerb
        now).1._requestHistory = p._requestHistory ∧
    (Peer.onReceive K r p localPort remoteAddr hops packetId verb inRePacketId inReVerb
        now).1._latency = p._latency ∧
    (Peer.onReceive K r p localPort remoteAddr hops packetId verb inRePacketId inReVerb
        now).1._lastAnnouncedTo = p._lastAnnouncedTo ∧
    (Peer.onReceive K r p localPort remoteAddr hops packetId verb inRePacketId inReVerb
        now).2.calls = r.calls := by
  unfold Peer.onReceive
  rw [if_neg hh]
  obtain ⟨e4, e6, el, eh, ea⟩ := frameStep_fields p verb now
  exact ⟨e4, e6, eh, el, ea, rfl⟩


/-- A packet relayed over two hops, though it answers the pending request, changes neither the IPv4 path nor the history. -/
theorem relayed_packet_leaves_paths_witness :
    (2 : Nat) ≠ 0 ∧
    (Peer.onReceive sampleHeaders allSucceed (mkPeer (pathX false) emptyPath [pendingRequest])
        1 addrY 2 9 (Verb.other 3) 7 (Verb.other 1) 50).1._ipv4p = pathX false ∧
    (Peer.onReceive sampleHeaders allSucceed (mkPeer (pathX false) emptyPath [pendingRequest])
        1 addrY 2 9 (Verb.other 3) 7 (Verb.other 1) 50).1._requestHistory = [pendingRequest] :=
  ⟨by decide,
   (relayed_packet_leaves_paths sampleHeaders allSucceed
      (mkPeer (pathX false) emptyPath [pendingRequest]) 1 addrY 2 9 (Verb.other 3) 7
      (Verb.other 1) 50 (by decide)).1,
   (relayed_packet_leaves_paths sampleHeaders allSucceed
      (mkPeer (pathX false) emptyPath [pendingRequest]) 1 addrY 2 9 (Verb.other 3) 7
      (Verb.other 1) 50 (by decide)).2.2.1⟩

/-- C7. Path selection preference: when the IPv6 path is active at `now` and the IPv4 path
has an address, the first transport send is on the IPv6 path; if it succeeds `send` returns
the IPv6 local port and IPv4 is not attempted; if it fails the IPv4 path is attempted next
and, when that succeeds, `send` returns the IPv4 local port.  When the IPv4 path has no
address and the IPv6 path has one, the IPv6 path is attempted (and only it), whether it is
active or not. -/
theorem send_prefers_active_v6 (K : Headers) (r : RuntimeEnvironment) (p : Peer)
    (data : List Nat) (len : Nat) (now : Nat) :
    (K.isActive p._ipv6p now = true → p._ipv4p.addr.toBool = true →
      (r.outcome r.calls.length = true →
        (Peer.send K r p data len now).1 = p._ipv6p.localPort ∧
        (Peer.send K r p data len now).2.2.calls
          = r.calls ++ [Event.demarcSend p._ipv6p.localPort p._ipv6p.addr data len (-1)]) ∧
      (r.outcome r.calls.length = false →
        (Peer.send K r p data len now).2.2.calls
          = r.calls ++ [Event.demarcSend p._ipv6p.localPort p._ipv6p.addr data len (-1),
                        Event.demarcSend p._ipv4p.localPort p._ipv4p.addr data len (-1)] ∧
        (r.outcome (r.calls.length + 1) = true →
          (Peer.send K r p data len now).1 = p._ipv4p.localPort))) ∧
    (p._ipv4p.addr.toBool = false → p._ipv6p.addr.toBool = true →
      (Peer.send K r p data len now).2.2.calls
        = r.calls ++ [Event.demarcSend p._ipv6p.localPort p._ipv6p.addr data len (-1)] ∧
      (r.outcome r.calls.length = true →
        (Peer.send K r p data len now).1 = p._ipv6p.localPort)) := by
  refine ⟨fun hact h4 => ⟨fun ho => ?_, fun ho => ?_⟩, fun h4 h6 => ?_⟩
  · have hp : prefersV6 K p now = true := by unfold prefersV6; rw [hact]; rfl
    unfold Peer.send
    rw [if_pos hp]
    simp [RuntimeEnvironment.invoke, ho]
  · have hp : prefersV6 K p now = true := by unfold prefersV6; rw [hact]; rfl
    unfold Peer.send
    rw [if_pos hp]
    unfold sendV4
    simp only [RuntimeEnvironment.invoke, ho, h4, if_true, List.length_append, List.length_singleton]
    cases ho2 : r.outcome (r.calls.length + 1) <;> simp
  · have hp : prefersV6 K p now = true := by unfold prefersV6; rw [h4, h6]; simp
    unfold Peer.send
    rw [if_pos hp]
    unfold sendV4
    cases ho : r.outcome r.calls.length <;> simp [RuntimeEnvironment.invoke, ho, h4]

/-- With IPv6 active and the first transport send failing, IPv6 is attempted, then IPv4, whose local port 1 is returned. -/
theorem send_prefers_active_v6_witness :
    sampleHeaders.isActive (mkPeer (pathX false) pathZHeard [])._ipv6p 100 = true ∧
    (mkPeer (pathX false) pathZHeard [])._ipv4p.addr.toBool = true ∧
    firstFails.outcome firstFails.calls.length = false ∧
    (Peer.send sampleHeaders firstFails (mkPeer (pathX false) pathZHeard []) [1, 2, 3] 3
        100).2.2.calls
      = [Event.demarcSend 2 (InetAddress.v6 1 9993) [1, 2, 3] 3 (-1),
         Event.demarcSend 1 (InetAddress.v4 167772161 9993) [1, 2, 3] 3 (-1)] ∧
    (Peer.send sampleHeaders firstFails (mkPeer (pathX false) pathZHeard []) [1, 2, 3] 3 100).1
      = 1 :=
  ⟨by decide, by decide, by decide,
   (((send_prefers_active_v6 sampleHeaders firstFails (mkPeer (pathX false) pathZHeard [])
      [1, 2, 3] 3 100).1 (by decide) (by decide)).2 (by decide)).1,
   (((send_prefers_active_v6 sampleHeaders firstFails (mkPeer (pathX false) pathZHeard [])
      [1, 2, 3] 3 100).1 (by decide) (by decide)).2 (by decide)).2 (by decide)⟩

/-- C8 (counterexample). The IPv6 path has an address but was last heard from too long ago
to be active, so the IPv4 path is the one chosen first; its transport send fails, the IPv6
path is not attempted, and `send` reports failure. -/
theorem send_no_fallthrough_to_inactive_v6 :
    prefersV6 sampleHeaders (mkPeer (pathX false) pathZ []) 1000000 = false ∧
    (mkPeer (pathX false) pathZ [])._ipv6p.addr.toBool = true ∧
    (Peer.send sampleHeaders allFail (mkPeer (pathX false) pathZ []) [1, 2, 3] 3
        1000000).2.2.calls
      = [Event.demarcSend 1 (InetAddress.v4 167772161 9993) [1, 2, 3] 3 (-1)] ∧
    (Peer.send sampleHeaders allFail (mkPeer (pathX false) pathZ []) [1, 2, 3] 3 1000000).1
      = sampleHeaders.NULL_PORT := by
  decide

/-- C8 (amended). Fall-through goes from IPv6 to IPv4 only.  When the IPv6 path is the one
attempted first (it is active, or IPv4 has no address and IPv6 has one) and its transport
send fails, the IPv4 path is attempted exactly when it has an address.  When the IPv6 path is
not preferred, the IPv4 path alone is attempted, if it has an address, and nothing follows
its failure.  If every attempted transport send failed, `send` returns `NULL_PORT` and
leaves the peer as it was; and if some attempted transport send succeeded, `send` returns
the local port of the path on which it succeeded and stamps that path's `lastSend`: failure
is reported only when the transport send failed on every path that was attempted. -/
theorem send_fallthrough_v6_to_v4 (K : Headers) (r : RuntimeEnvironment) (p : Peer)
    (data : List Nat) (len : Nat) (now : Nat) :
    (prefersV6 K p now = true → r.outcome r.calls.length = false →
      (Peer.send K r p data len now).2.2.calls
        = r.calls ++ Event.demarcSend p._ipv6p.localPort p._ipv6p.addr data len (-1) ::
            (if p._ipv4p.addr.toBool
              then [Event.demarcSend p._ipv4p.localPort p._ipv4p.addr data len (-1)]
              else [])) ∧
    (prefersV6 K p now = false →
      (Peer.send K r p data len now).2.2.calls
        = r.calls ++ (if p._ipv4p.addr.toBool
              then [Event.demarcSend p._ipv4p.localPort p._ipv4p.addr data len (-1)]
              else [])) ∧
    ((∀ i, i < (Peer.send K r p data len now).2.2.calls.length - r.calls.length →
        r.outcome (r.calls.length + i) = false) →
      (Peer.send K r p data len now).1 = K.NULL_PORT ∧
      (Peer.send K r p data len now).2.1 = p) ∧
    ((∃ i, i < (Peer.send K r p data len now).2.2.calls.length - r.calls.length ∧
        r.outcome (r.calls.length + i) = true) →
      ((Peer.send K r p data len now).2.2.calls
          = r.calls ++ [Event.demarcSend p._ipv6p.localPort p._ipv6p.addr data len (-1)] ∧
        r.outcome r.calls.length = true ∧
        (Peer.send K r p data len now).1 = p._ipv6p.localPort ∧
        (Peer.send K r p data len now).2.1
          = { p with _ipv6p := { p._ipv6p with lastSend := now } }) ∨
      ((Peer.send K r p data len now).2.2.calls
          = r.calls ++ [Event.demarcSend p._ipv4p.localPort p._ipv4p.addr data len (-1)] ∧
        r.outcome r.calls.length = true ∧
        (Peer.send K r p data len now).1 = p._ipv4p.localPort ∧
        (Peer.send K r p data len now).2.1
          = { p with _ipv4p := { p._ipv4p with lastSend := now } }) ∨
      ((Peer.send K r p data len now).2.2.calls
          = r.calls ++ [Event.demarcSend p._ipv6p.localPort p._ipv6p.addr data len (-1),
                        Event.demarcSend p._ipv4p.localPort p._ipv4p.addr data len (-1)] ∧
        r.outcome r.calls.length = false ∧ r.outcome (r.calls.length + 1) = true ∧
        (Peer.send K r p data len now).1 = p._ipv4p.localPort ∧
        (Peer.send K r p data len now).2.1
          = { p with _ipv4p := { p._ipv4p with lastSend := now } })) := by
  obtain ⟨c1, c2⟩ := send_calls K r p data len now
  refine ⟨c1, c2, fun hall => ?_, fun hsome => ?_⟩
  · rcases send_outcome K r p data len now with ⟨hc, ho, -⟩ | ⟨hc, ho, -⟩ | ⟨hc, -, ho, -⟩ |
      ⟨-, h1, h2⟩
    · have := hall 0 (by rw [hc]; simp)
      rw [Nat.add_zero, ho] at this
      exact absurd this (by decide)
    · have := hall 0 (by rw [hc]; simp)
      rw [Nat.add_zero, ho] at this
      exact absurd this (by decide)
    · have := hall 1 (by rw [hc]; simp)
      rw [ho] at this
      exact absurd this (by decide)
    · exact ⟨h1, h2⟩
  · rcases send_outcome K r p data len now with h | h | h | ⟨hall, -, -⟩
    · exact Or.inl h
    · exact Or.inr (Or.inl h)
    · exact Or.inr (Or.inr h)
    · obtain ⟨i, hi, ho⟩ := hsome
      rw [hall i hi] at ho
      exact absurd ho (by decide)

/-- With IPv6 preferred and the first transport send failing, IPv6 is attempted and then
IPv4; the IPv4 send succeeds, so `send` returns the IPv4 local port 1 and stamps the IPv4
path with the time 100. -/
theorem send_fallthrough_v6_to_v4_witness :
    prefersV6 sampleHeaders (mkPeer (pathX false) pathZHeard []) 100 = true ∧
    firstFails.outcome firstFails.calls.length = false ∧
    (Peer.send sampleHeaders firstFails (mkPeer (pathX false) pathZHeard []) [1, 2, 3] 3
        100).2.2.calls
      = [Event.demarcSend 2 (InetAddress.v6 1 9993) [1, 2, 3] 3 (-1),
         Event.demarcSend 1 (InetAddress.v4 167772161 9993) [1, 2, 3] 3 (-1)] ∧
    (Peer.send sampleHeaders firstFails (mkPeer (pathX false) pathZHeard []) [1, 2, 3] 3
        100).1 = 1 ∧
    (Peer.send sampleHeaders firstFails (mkPeer (pathX false) pathZHeard []) [1, 2, 3] 3
        100).2.1._ipv4p.lastSend = 100 :=
  ⟨by decide, by decide,
   (send_fallthrough_v6_to_v4 sampleHeaders firstFails (mkPeer (pathX false) pathZHeard [])
      [1, 2, 3] 3 100).1 (by decide) (by decide),
   by decide, by decide⟩

/-- Remark on the returned port.  A path can be bound to the local port that `NULL_PORT`
denotes: here the IPv4 path is, the IPv6 path has no address and is not active, and the
transport send on IPv4 succeeds.  `send` stamps the path and returns its local port, as on
every success; only the value of that port coincides with `NULL_PORT`. -/
theorem send_null_port_with_state_change :
    prefersV6 sampleHeaders (mkPeer pathXNullPort emptyPath []) 1000000 = false ∧
    (Peer.send sampleHeaders allSucceed (mkPeer pathXNullPort emptyPath []) [1, 2, 3] 3
        1000000).1 = sampleHeaders.NULL_PORT ∧
    (Peer.send sampleHeaders allSucceed (mkPeer pathXNullPort emptyPath []) [1, 2, 3] 3
        1000000).2.1 ≠ mkPeer pathXNullPort emptyPath [] ∧
    (Peer.send sampleHeaders allSucceed (mkPeer pathXNullPort emptyPath []) [1, 2, 3] 3
        1000000).2.1._ipv4p.lastSend = 1000000 := by
  decide

/-- C9. Effects of `send`, for every peer and every transport outcome.  Either a transport
send succeeded, and then exactly one did, the last one attempted: `send` returns the local
port of that path, that path's `lastSend` is `now`, and nothing else in the peer has changed
(both addresses, the fixed flags, `lastReceive`, `lastFirewallOpener`, the other path's
`lastSend`, the request history, the latency).  Or every transport send that was attempted
failed: `send` returns `NULL_PORT` and the whole peer is unchanged.  A returned port other
than `NULL_PORT` always is the local port of the path whose transport send succeeded. -/
theorem send_effects (K : Headers) (r : RuntimeEnvironment) (p : Peer)
    (data : List Nat) (len : Nat) (now : Nat) :
    (((Peer.send K r p data len now).2.2.calls
          = r.calls ++ [Event.demarcSend p._ipv6p.localPort p._ipv6p.addr data len (-1)] ∧
        r.outcome r.calls.length = true ∧
        (Peer.send K r p data len now).1 = p._ipv6p.localPort ∧
        (Peer.send K r p data len now).2.1
          = { p with _ipv6p := { p._ipv6p with lastSend := now } }) ∨
      ((Peer.send K r p data len now).2.2.calls
          = r.calls ++ [Event.demarcSend p._ipv4p.localPort p._ipv4p.addr data len (-1)] ∧
        r.outcome r.calls.length = true ∧
        (Peer.send K r p data len now).1 = p._ipv4p.localPort ∧
        (Peer.send K r p data len now).2.1
          = { p with _ipv4p := { p._ipv4p with lastSend := now } }) ∨
      ((Peer.send K r p data len now).2.2.calls
          = r.calls ++ [Event.demarcSend p._ipv6p.localPort p._ipv6p.addr data len (-1),
                        Event.demarcSend p._ipv4p.localPort p._ipv4p.addr data len (-1)] ∧
        r.outcome r.calls.length = false ∧ r.outcome (r.calls.length + 1) = true ∧
        (Peer.send K r p data len now).1 = p._ipv4p.localPort ∧
        (Peer.send K r p data len now).2.1
          = { p with _ipv4p := { p._ipv4p with lastSend := now } }) ∨
      ((∀ i, i < (Peer.send K r p data len now).2.2.calls.length - r.calls.length →
          r.outcome (r.calls.length + i) = false) ∧
        (Peer.send K r p data len now).1 = K.NULL_PORT ∧
        (Peer.send K r p data len now).2.1 = p)) ∧
    ((Peer.send K r p data len now).1 ≠ K.NULL_PORT →
      ((Peer.send K r p data len now).2.2.calls
          = r.calls ++ [Event.demarcSend p._ipv6p.localPort p._ipv6p.addr data len (-1)] ∧
        r.outcome r.calls.length = true ∧
        (Peer.send K r p data len now).1 = p._ipv6p.localPort ∧
        (Peer.send K r p data len now).2.1
          = { p with _ipv6p := { p._ipv6p with lastSend := now } }) ∨
      ((Peer.send K r p data len now).2.2.calls
          = r.calls ++ [Event.demarcSend p._ipv4p.localPort p._ipv4p.addr data len (-1)] ∧
        r.outcome r.calls.length = true ∧
        (Peer.send K r p data len now).1 = p._ipv4p.localPort ∧
        (Peer.send K r p data len now).2.1
          = { p with _ipv4p := { p._ipv4p with lastSend := now } }) ∨
      ((Peer.send K r p data len now).2.2.calls
          = r.calls ++ [Event.demarcSend p._ipv6p.localPort p._ipv6p.addr data len (-1),
                        Event.demarcSend p._ipv4p.localPort p._ipv4p.addr data len (-1)] ∧
        r.outcome r.calls.length = false ∧ r.outcome (r.calls.length + 1) = true ∧
        (Peer.send K r p data len now).1 = p._ipv4p.localPort ∧
        (Peer.send K r p data len now).2.1
          = { p with _ipv4p := { p._ipv4p with lastSend := now } })) := by
  refine ⟨send_outcome K r p data len now, fun hne => ?_⟩
  rcases send_outcome K r p data len now with h | h | h | ⟨-, hr, -⟩
  · exact Or.inl h
  · exact Or.inr (Or.inl h)
  · exact Or.inr (Or.inr h)
  · exact absurd hr hne

/-- IPv6 is preferred and its transport send fails, the IPv4 send succeeds: `send` returns
a port other than `NULL_PORT`, and one of the two paths carries `lastSend = 100`. -/
theorem send_effects_witness :
    (Peer.send sampleHeaders firstFails (mkPeer (pathX false) pathZHeard []) [1, 2, 3] 3 100).1
        ≠ sampleHeaders.NULL_PORT ∧
    ((Peer.send sampleHeaders firstFails (mkPeer (pathX false) pathZHeard []) [1, 2, 3] 3
        100).2.1._ipv6p.lastSend = 100 ∨
      (Peer.send sampleHeaders firstFails (mkPeer (pathX false) pathZHeard []) [1, 2, 3] 3
        100).2.1._ipv4p.lastSend = 100) ∧
    (Peer.send sampleHeaders firstFails (mkPeer (pathX false) pathZHeard []) [1, 2, 3] 3
        100).2.1 = { mkPeer (pathX false) pathZHeard [] with
                      _ipv4p := { pathX false with lastSend := 100 } } ∧
    (Peer.send sampleHeaders allFail (mkPeer (pathX false) pathZHeard []) [1, 2, 3] 3
        100).2.1 = mkPeer (pathX false) pathZHeard [] :=
  ⟨by decide,
   ((send_effects sampleHeaders firstFails (mkPeer (pathX false) pathZHeard []) [1, 2, 3] 3
      100).2 (by decide)).elim
      (fun h => Or.inl (by rw [h.2.2.2]))
      (fun h => h.elim (fun h => Or.inr (by rw [h.2.2.2]))
        (fun h => Or.inr (by rw [h.2.2.2.2]))),
   by decide, by decide⟩

/-- C10. `sendFirewallOpener`: the calls made are one transport send of the single byte `0`
(length 1) with hop override `ZT_FIREWALL_OPENER_HOPS` for each path that has an address,
IPv4 first, and nothing else; the result is true exactly when one of these sends succeeded;
`lastFirewallOpener` becomes `now` on each path whose send succeeded and a path is otherwise
unchanged, as is the rest of the peer; with no address on either path the result is false,
the peer is unchanged and no call is made. -/
theorem sendFirewallOpener_effects (K : Headers) (r : RuntimeEnvironment) (p : Peer)
    (now : Nat) :
    (Peer.sendFirewallOpener K r p now).2.2.calls
      = r.calls
        ++ (if p._ipv4p.addr.toBool
            then [Event.demarcSend p._ipv4p.localPort p._ipv4p.addr [0] 1
                    K.ZT_FIREWALL_OPENER_HOPS]
            else [])
        ++ (if p._ipv6p.addr.toBool
            then [Event.demarcSend p._ipv6p.localPort p._ipv6p.addr [0] 1
                    K.ZT_FIREWALL_OPENER_HOPS]
            else []) ∧
    (Peer.sendFirewallOpener K r p now).1
      = ((p._ipv4p.addr.toBool && r.outcome r.calls.length) ||
         (p._ipv6p.addr.toBool &&
            r.outcome (r.calls.length + (if p._ipv4p.addr.toBool then 1 else 0)))) ∧
    (Peer.sendFirewallOpener K r p now).2.1._ipv4p
      = (if p._ipv4p.addr.toBool && r.outcome r.calls.length
         then { p._ipv4p with lastFirewallOpener := now } else p._ipv4p) ∧
    (Peer.sendFirewallOpener K r p now).2.1._ipv6p
      = (if p._ipv6p.addr.toBool &&
            r.outcome (r.calls.length + (if p._ipv4p.addr.toBool then 1 else 0))
         then { p._ipv6p with lastFirewallOpener := now } else p._ipv6p) ∧
    (Peer.sendFirewallOpener K r p now).2.1
      = { p with _ipv4p := (Peer.sendFirewallOpener K r p now).2.1._ipv4p,
                 _ipv6p := (Peer.sendFirewallOpener K r p now).2.1._ipv6p } ∧
    (p._ipv4p.addr.toBool = false → p._ipv6p.addr.toBool = false →
      (Peer.sendFirewallOpener K r p now).1 = false ∧
      (Peer.sendFirewallOpener K r p now).2.1 = p ∧
      (Peer.sendFirewallOpener K r p now).2.2.calls = r.calls) := by
  unfold Peer.sendFirewallOpener
  by_cases h4 : p._ipv4p.addr.toBool = true <;>
    by_cases h6 : p._ipv6p.addr.toBool = true <;>
    cases ho4 : r.outcome r.calls.length <;>
    cases ho6 : r.outcome (r.calls.length + 1) <;>
    simp [h4, h6, ho4, ho6, RuntimeEnvironment.invoke]

/-- A peer without addresses: no call is made, the result is false and the peer is unchanged. -/
theorem sendFirewallOpener_effects_witness :
    (mkPeer emptyPath emptyPath [pendingRequest])._ipv4p.addr.toBool = false ∧
    (mkPeer emptyPath emptyPath [pendingRequest])._ipv6p.addr.toBool = false ∧
    (Peer.sendFirewallOpener sampleHeaders allSucceed (mkPeer emptyPath emptyPath [pendingRequest])
        7).1 = false ∧
    (Peer.sendFirewallOpener sampleHeaders allSucceed (mkPeer emptyPath emptyPath [pendingRequest])
        7).2.1 = mkPeer emptyPath emptyPath [pendingRequest] ∧
    (Peer.sendFirewallOpener sampleHeaders allSucceed (mkPeer emptyPath emptyPath [pendingRequest])
        7).2.2.calls = allSucceed.calls :=
  ⟨by decide, by decide,
   (sendFirewallOpener_effects sampleHeaders allSucceed
      (mkPeer emptyPath emptyPath [pendingRequest]) 7).2.2.2.2.2 (by decide) (by decide)⟩

/-! ## Administrative overrides -/

/-- C11. `setPathAddress(a, f)`: the path of `a`'s family gets address `a` and `fixed = f`,
also when it was fixed before; its timestamps and local port, the other family's path record
and every other field of the peer stay as they were; an address of neither family changes
nothing. -/
theorem setPathAddress_effects (p : Peer) (a : InetAddress) (f : Bool) :
    (a.isV4 = true →
      (p.setPathAddress a f)._ipv4p.addr = a ∧
      (p.setPathAddress a f)._ipv4p.fixed = f ∧
      (p.setPathAddress a f)._ipv4p.lastSend = p._ipv4p.lastSend ∧
      (p.setPathAddress a f)._ipv4p.lastReceive = p._ipv4p.lastReceive ∧
      (p.setPathAddress a f)._ipv4p.lastFirewallOpener = p._ipv4p.lastFirewallOpener ∧
      (p.setPathAddress a f)._ipv4p.localPort = p._ipv4p.localPort ∧
      (p.setPathAddress a f)._ipv6p = p._ipv6p ∧
      p.setPathAddress a f = { p with _ipv4p := (p.setPathAddress a f)._ipv4p }) ∧
    (a.isV6 = true →
      (p.setPathAddress a f)._ipv6p.addr = a ∧
      (p.setPathAddress a f)._ipv6p.fixed = f ∧
      (p.setPathAddress a f)._ipv6p.lastSend = p._ipv6p.lastSend ∧
      (p.setPathAddress a f)._ipv6p.lastReceive = p._ipv6p.lastReceive ∧
      (p.setPathAddress a f)._ipv6p.lastFirewallOpener = p._ipv6p.lastFirewallOpener ∧
      (p.setPathAddress a f)._ipv6p.localPort = p._ipv6p.localPort ∧
      (p.setPathAddress a f)._ipv4p = p._ipv4p ∧
      p.setPathAddress a f = { p with _ipv6p := (p.setPathAddress a f)._ipv6p }) ∧
    (a.isV4 = false → a.isV6 = false → p.setPathAddress a f = p) := by
  refine ⟨fun h4 => ?_, fun h6 => ?_, fun h4 h6 => ?_⟩
  · unfold Peer.setPathAddress
    rw [if_pos h4]
    exact ⟨rfl, rfl, rfl, rfl, rfl, rfl, rfl, rfl⟩
  · have h4 : ¬ a.isV4 = true := by
      cases a <;> simp [InetAddress.isV4, InetAddress.isV6] at h6 ⊢
    unfold Peer.setPathAddress
    rw [if_neg h4, if_pos h6]
    exact ⟨rfl, rfl, rfl, rfl, rfl, rfl, rfl, rfl⟩
  · unfold Peer.setPathAddress
    rw [if_neg (by rw [h4]; decide), if_neg (by rw [h6]; decide)]

/-- A fixed IPv4 path at `10.0.0.1` is force-set to `addrY`, not fixed. -/
theorem setPathAddress_effects_witness :
    addrY.isV4 = true ∧
    ((mkPeer (pathX true) pathZ [pendingRequest]).setPathAddress addrY false)._ipv4p.addr
      = addrY ∧
    ((mkPeer (pathX true) pathZ [pendingRequest]).setPathAddress addrY false)._ipv4p.fixed
      = false :=
  ⟨by decide,
   ((setPathAddress_effects (mkPeer (pathX true) pathZ [pendingRequest]) addrY false).1
      (by decide)).1,
   ((setPathAddress_effects (mkPeer (pathX true) pathZ [pendingRequest]) addrY false).1
      (by decide)).2.1⟩

/-- C12. `clearFixedFlag`: the selector `TYPE_NULL` (both) clears `fixed` on both paths, the
selector of one family clears it on that family's path only, and nothing else in the peer
changes (no address, no other field).  After `setPathAddress(X, true)` and `clearFixedFlag`
for `X`'s family, a direct packet from an address `Y` of the same family that answers a
request in the history sets that path's address to `Y`. -/
theorem clearFixedFlag_reenables_learning (K : Headers) (r : RuntimeEnvironment) (p : Peer) :
    p.clearFixedFlag AddressType.TYPE_NULL
      = { p with _ipv4p := { p._ipv4p with fixed := false },
                 _ipv6p := { p._ipv6p with fixed := false } } ∧
    p.clearFixedFlag AddressType.TYPE_IPV4
      = { p with _ipv4p := { p._ipv4p with fixed := false } } ∧
    p.clearFixedFlag AddressType.TYPE_IPV6
      = { p with _ipv6p := { p._ipv6p with fixed := false } } ∧
    (∀ (X Y : InetAddress) (localPort packetId : Nat) (verb : Verb) (inRePacketId : Nat)
        (inReVerb : Verb) (now : Nat),
      X.isV4 = true → Y.isV4 = true → inReVerb ≠ Verb.VERB_NOP →
      (∃ h ∈ p._requestHistory,
        h.timestamp ≠ 0 ∧ h.packetId = inRePacketId ∧ h.verb = inReVerb) →
      (Peer.onReceive K r ((p.setPathAddress X true).clearFixedFlag AddressType.TYPE_IPV4)
          localPort Y 0 packetId verb inRePacketId inReVerb now).1._ipv4p.addr = Y) ∧
    (∀ (X Y : InetAddress) (localPort packetId : Nat) (verb : Verb) (inRePacketId : Nat)
        (inReVerb : Verb) (now : Nat),
      X.isV6 = true → Y.isV6 = true → inReVerb ≠ Verb.VERB_NOP →
      (∃ h ∈ p._requestHistory,
        h.timestamp ≠ 0 ∧ h.packetId = inRePacketId ∧ h.verb = inReVerb) →
      (Peer.onReceive K r ((p.setPathAddress X true).clearFixedFlag AddressType.TYPE_IPV6)
          localPort Y 0 packetId verb inRePacketId inReVerb now).1._ipv6p.addr = Y) := by
  refine ⟨rfl, rfl, rfl, ?_, ?_⟩
  · intro X Y localPort packetId verb inRePacketId inReVerb now hX hY hv hslot
    have hsel : ∀ q : Peer, selectedPath q Y = q._ipv4p := by
      intro q; unfold selectedPath; rw [if_pos hY]
    have hist : ((p.setPathAddress X true).clearFixedFlag AddressType.TYPE_IPV4)._requestHistory
        = p._requestHistory := by
      unfold Peer.setPathAddress
      rw [if_pos hX]
      rfl
    have h := onReceive_learns_addr K r
      ((p.setPathAddress X true).clearFixedFlag AddressType.TYPE_IPV4) localPort Y packetId verb
      inRePacketId inReVerb now (by rw [hsel]; rfl) hv (by rw [hist]; exact hslot)
    rw [hsel] at h
    exact h
  · intro X Y localPort packetId verb inRePacketId inReVerb now hX hY hv hslot
    have hY4 : ¬ Y.isV4 = true := by
      cases Y <;> simp [InetAddress.isV4, InetAddress.isV6] at hY ⊢
    have hX4 : ¬ X.isV4 = true := by
      cases X <;> simp [InetAddress.isV4, InetAddress.isV6] at hX ⊢
    have hsel : ∀ q : Peer, selectedPath q Y = q._ipv6p := by
      intro q; unfold selectedPath; rw [if_neg hY4]
    have hist : ((p.setPathAddress X true).clearFixedFlag AddressType.TYPE_IPV6)._requestHistory
        = p._requestHistory := by
      unfold Peer.setPathAddress
      rw [if_neg hX4, if_pos hX]
      rfl
    have h := onReceive_learns_addr K r
      ((p.setPathAddress X true).clearFixedFlag AddressType.TYPE_IPV6) localPort Y packetId verb
      inRePacketId inReVerb now (by rw [hsel]; rfl) hv (by rw [hist]; exact hslot)
    rw [hsel] at h
    exact h

/-- The IPv4 path is pinned at `10.0.0.1`, un-pinned again, and then learns `addrY` from a
reply to the pending request. -/
theorem clearFixedFlag_reenables_learning_witness :
    (InetAddress.v4 167772161 9993).isV4 = true ∧ addrY.isV4 = true ∧
    (Peer.onReceive sampleHeaders allSucceed
        (((mkPeer emptyPath emptyPath [pendingRequest]).setPathAddress
            (InetAddress.v4 167772161 9993) true).clearFixedFlag AddressType.TYPE_IPV4)
        1 addrY 0 9 (Verb.other 3) 7 (Verb.other 1) 50).1._ipv4p.addr = addrY :=
  ⟨by decide, by decide,
   (clearFixedFlag_reenables_learning sampleHeaders allSucceed
      (mkPeer emptyPath emptyPath [pendingRequest])).2.2.2.1
      (InetAddress.v4 167772161 9993) addrY 1 9 (Verb.other 3) 7 (Verb.other 1) 50
      (by decide) (by decide) (by decide) (by decide)⟩

/-! ## Traffic timestamps -/

theorem directStep_frames (K : Headers) (r : RuntimeEnvironment) (self : Peer) (localPort : Nat)
    (remoteAddr : InetAddress) (inRePacketId : Nat) (inReVerb : Verb) (now : Nat) :
    (directStep K r self localPort remoteAddr inRePacketId inReVerb now).1._lastUnicastFrame
      = self._lastUnicastFrame ∧
    (directStep K r self localPort remoteAddr inRePacketId inReVerb now).1._lastMulticastFrame
      = self._lastMulticastFrame := by
  unfold directStep storeSelectedPath
  rcases announceStep_fst K r self now with h | h <;> split <;> simp [h]

theorem onReceive_frames (K : Headers) (r : RuntimeEnvironment) (p : Peer) (localPort : Nat)
    (remoteAddr : InetAddress) (hops : Nat) (packetId : Nat) (verb : Verb)
    (inRePacketId : Nat) (inReVerb : Verb) (now : Nat) :
    ∃ q : Peer, q._lastUnicastFrame = p._lastUnicastFrame ∧
      q._lastMulticastFrame = p._lastMulticastFrame ∧
      (Peer.onReceive K r p localPort remoteAddr hops packetId verb inRePacketId inReVerb
        now).1 = frameStep q verb now := by
  unfold Peer.onReceive
  by_cases hh : hops = 0
  · rw [if_pos hh]
    obtain ⟨e1, e2⟩ := directStep_frames K r p localPort remoteAddr inRePacketId inReVerb now
    exact ⟨_, e1, e2, rfl⟩
  · rw [if_neg hh]
    exact ⟨p, rfl, rfl, rfl⟩

/-- C14 (counterexample). A unicast data frame relayed over one hop (`hops = 1`) at time 50
sets `_lastUnicastFrame` to 50, although the hop count is not zero. -/
theorem relayed_frame_updates_timestamp :
    (mkPeer (pathX false) emptyPath [])._lastUnicastFrame = 0 ∧
    (Peer.onReceive sampleHeaders allSucceed (mkPeer (pathX false) emptyPath [])
        1 addrY 1 9 Verb.VERB_FRAME 0 Verb.VERB_NOP 50).1._lastUnicastFrame = 50 := by
  decide

/-- C14 (amended). The traffic timestamps are updated on every `onReceive` call, whatever the
hop count: a unicast-data-frame verb sets `_lastUnicastFrame` to `now` and leaves
`_lastMulticastFrame`, a multicast-data-frame verb sets `_lastMulticastFrame` to `now` and
leaves `_lastUnicastFrame`, and any other verb leaves both. -/
theorem traffic_timestamps_any_hops (K : Headers) (r : RuntimeEnvironment) (p : Peer)
    (localPort : Nat) (remoteAddr : InetAddress) (hops : Nat) (packetId : Nat) (verb : Verb)
    (inRePacketId : Nat) (inReVerb : Verb) (now : Nat) :
    (verb = Verb.VERB_FRAME →
      (Peer.onReceive K r p localPort remoteAddr hops packetId verb inRePacketId inReVerb
        now).1._lastUnicastFrame = now ∧
      (Peer.onReceive K r p localPort remoteAddr hops packetId verb inRePacketId inReVerb
        now).1._lastMulticastFrame = p._lastMulticastFrame) ∧
    (verb = Verb.VERB_MULTICAST_FRAME →
      (Peer.onReceive K r p localPort remoteAddr hops packetId verb inRePacketId inReVerb
        now).1._lastMulticastFrame = now ∧
      (Peer.onReceive K r p localPort remoteAddr hops packetId verb inRePacketId inReVerb
        now).1._lastUnicastFrame = p._lastUnicastFrame) ∧
    (verb ≠ Verb.VERB_FRAME → verb ≠ Verb.VERB_MULTICAST_FRAME →
      (Peer.onReceive K r p localPort remoteAddr hops packetId verb inRePacketId inReVerb
        now).1._lastUnicastFrame = p._lastUnicastFrame ∧
      (Peer.onReceive K r p localPort remoteAddr hops packetId verb inRePacketId inReVerb
        now).1._lastMulticastFrame = p._lastMulticastFrame) := by
  obtain ⟨q, e1, e2, hq⟩ := onReceive_frames K r p localPort remoteAddr hops packetId verb
    inRePacketId inReVerb now
  rw [hq]
  unfold frameStep
  refine ⟨fun hv => ?_, fun hv => ?_, fun h1 h2 => ?_⟩
  · rw [if_pos hv]
    exact ⟨rfl, e2⟩
  · rw [if_neg (by rw [hv]; decide), if_pos hv]
    exact ⟨rfl, e1⟩
  · rw [if_neg h1, if_neg h2]
    exact ⟨e1, e2⟩

/-- A direct multicast data frame at time 50 stamps `_lastMulticastFrame` only. -/
theorem traffic_timestamps_any_hops_witness :
    Verb.VERB_MULTICAST_FRAME = Verb.VERB_MULTICAST_FRAME ∧
    (Peer.onReceive sampleHeaders allSucceed (mkPeer (pathX false) emptyPath [])
        1 addrY 0 9 Verb.VERB_MULTICAST_FRAME 0 Verb.VERB_NOP 50).1._lastMulticastFrame = 50 ∧
    (Peer.onReceive sampleHeaders allSucceed (mkPeer (pathX false) emptyPath [])
        1 addrY 0 9 Verb.VERB_MULTICAST_FRAME 0 Verb.VERB_NOP 50).1._lastUnicastFrame = 0 :=
  ⟨rfl,
   (traffic_timestamps_any_hops sampleHeaders allSucceed (mkPeer (pathX false) emptyPath [])
      1 addrY 0 9 Verb.VERB_MULTICAST_FRAME 0 Verb.VERB_NOP 50).2.1 rfl⟩

/-! ## `sendPing` -/

/-- C15 (counterexample). The IPv4 path has an address and the hello to it fails: after
`sendPing` at time 50 its `lastSend` is still 0, not 50. -/
theorem sendPing_failed_hello_not_stamped :
    (mkPeer (pathX false) emptyPath [])._ipv4p.addr.toBool = true ∧
    (Peer.sendPing allFail (mkPeer (pathX false) emptyPath []) 50).2.2.calls
      = [Event.sendHELLO 1 (InetAddress.v4 167772161 9993)] ∧
    (Peer.sendPing allFail (mkPeer (pathX false) emptyPath []) 50).2.1._ipv4p.lastSend = 0 ∧
    (Peer.sendPing allFail (mkPeer (pathX false) emptyPath []) 50).1 = false := by
  decide

/-- C15 (amended). `sendPing`: one hello is emitted for each path that has an address, IPv4
first, and nothing else is called; `lastSend` becomes `now` on each path whose hello was sent
successfully, and a path whose hello failed or that has no address is unchanged, as is the
rest of the peer; the result is true exactly when at least one hello was sent successfully. -/
theorem sendPing_effects (r : RuntimeEnvironment) (p : Peer) (now : Nat) :
    (Peer.sendPing r p now).2.2.calls
      = r.calls
        ++ (if p._ipv4p.addr.toBool
            then [Event.sendHELLO p._ipv4p.localPort p._ipv4p.addr] else [])
        ++ (if p._ipv6p.addr.toBool
            then [Event.sendHELLO p._ipv6p.localPort p._ipv6p.addr] else []) ∧
    (Peer.sendPing r p now).1
      = ((p._ipv4p.addr.toBool && r.outcome r.calls.length) ||
         (p._ipv6p.addr.toBool &&
            r.outcome (r.calls.length + (if p._ipv4p.addr.toBool then 1 else 0)))) ∧
    (Peer.sendPing r p now).2.1._ipv4p
      = (if p._ipv4p.addr.toBool && r.outcome r.calls.length
         then { p._ipv4p with lastSend := now } else p._ipv4p) ∧
    (Peer.sendPing r p now).2.1._ipv6p
      = (if p._ipv6p.addr.toBool &&
            r.outcome (r.calls.length + (if p._ipv4p.addr.toBool then 1 else 0))
         then { p._ipv6p with lastSend := now } else p._ipv6p) ∧
    (Peer.sendPing r p now).2.1
      = { p with _ipv4p := (Peer.sendPing r p now).2.1._ipv4p,
                 _ipv6p := (Peer.sendPing r p now).2.1._ipv6p } := by
  unfold Peer.sendPing
  by_cases h4 : p._ipv4p.addr.toBool = true <;>
    by_cases h6 : p._ipv6p.addr.toBool = true <;>
    cases ho4 : r.outcome r.calls.length <;>
    cases ho6 : r.outcome (r.calls.length + 1) <;>
    simp [h4, h6, ho4, ho6, RuntimeEnvironment.invoke]

/-! ## Per-family isolation of `onReceive` -/

/-- The bookkeeping fields of the path selected by a direct packet. -/
theorem onReceive_selected_fields (K : Headers) (r : RuntimeEnvironment) (p : Peer)
    (localPort : Nat) (remoteAddr : InetAddress) (packetId : Nat) (verb : Verb)
    (inRePacketId : Nat) (inReVerb : Verb) (now : Nat) :
    (selectedPath (Peer.onReceive K r p localPort remoteAddr 0 packetId verb inRePacketId
        inReVerb now).1 remoteAddr).lastReceive = now ∧
    (selectedPath (Peer.onReceive K r p localPort remoteAddr 0 packetId verb inRePacketId
        inReVerb now).1 remoteAddr).localPort
      = (if localPort ≠ 0 then localPort else K.ANY_PORT) ∧
    (selectedPath (Peer.onReceive K r p localPort remoteAddr 0 packetId verb inRePacketId
        inReVerb now).1 remoteAddr).lastSend = (selectedPath p remoteAddr).lastSend ∧
    (selectedPath (Peer.onReceive K r p localPort remoteAddr 0 packetId verb inRePacketId
        inReVerb now).1 remoteAddr).lastFirewallOpener
      = (selectedPath p remoteAddr).lastFirewallOpener ∧
    (selectedPath (Peer.onReceive K r p localPort remoteAddr 0 packetId verb inRePacketId
        inReVerb now).1 remoteAddr).fixed = (selectedPath p remoteAddr).fixed := by
  rw [onReceive_direct, selectedPath_frameStep]
  obtain ⟨d1, -, -, -⟩ := directStep_eq K r p localPort remoteAddr inRePacketId inReVerb now _
    rfl
  rw [d1]
  rcases replyStep_path remoteAddr inRePacketId inReVerb now p._requestHistory p._latency
    (receivedPath K (selectedPath p remoteAddr) localPort now) with h | ⟨-, h⟩ <;>
    rw [h] <;> exact ⟨rfl, rfl, rfl, rfl, rfl⟩

/-- The path of the other family is not written by `onReceive`. -/
theorem onReceive_other_path (K : Headers) (r : RuntimeEnvironment) (p : Peer)
    (localPort : Nat) (remoteAddr : InetAddress) (hops : Nat) (packetId : Nat) (verb : Verb)
    (inRePacketId : Nat) (inReVerb : Verb) (now : Nat) :
    (remoteAddr.isV4 = true →
      (Peer.onReceive K r p localPort remoteAddr hops packetId verb inRePacketId inReVerb
        now).1._ipv6p = p._ipv6p) ∧
    (remoteAddr.isV4 = false →
      (Peer.onReceive K r p localPort remoteAddr hops packetId verb inRePacketId inReVerb
        now).1._ipv4p = p._ipv4p) := by
  unfold Peer.onReceive
  obtain ⟨e4, e6, -⟩ := frameStep_fields
    (if hops = 0 then directStep K r p localPort remoteAddr inRePacketId inReVerb now
      else (p, r)).1 verb now
  rw [e4, e6]
  by_cases hh : hops = 0
  · rw [if_pos hh]
    obtain ⟨wp2, -, -, h4, h6⟩ :=
      directStep_paths K r p localPort remoteAddr inRePacketId inReVerb now
    rw [h4, h6]
    exact ⟨fun h => by rw [if_pos h], fun h => by rw [if_neg (by rw [h]; decide)]⟩
  · rw [if_neg hh]
    exact ⟨fun _ => rfl, fun _ => rfl⟩

/-- C20. Per-family isolation of `onReceive`: a direct packet from an IPv4 address leaves the
whole IPv6 path record unchanged, and a direct packet from an IPv6 address leaves the whole
IPv4 path record unchanged; on the path of the sender's family `lastReceive` becomes `now`,
the local port becomes the receiving port (`ANY_PORT` when the receiving port is zero), and
`lastSend`, `lastFirewallOpener` and `fixed` are unchanged. -/
theorem onReceive_family_isolation (K : Headers) (r : RuntimeEnvironment) (p : Peer)
    (localPort : Nat) (remoteAddr : InetAddress) (packetId : Nat) (verb : Verb)
    (inRePacketId : Nat) (inReVerb : Verb) (now : Nat) :
    (remoteAddr.isV4 = true →
      (Peer.onReceive K r p localPort remoteAddr 0 packetId verb inRePacketId inReVerb
        now).1._ipv6p = p._ipv6p ∧
      (Peer.onReceive K r p localPort remoteAddr 0 packetId verb inRePacketId inReVerb
        now).1._ipv4p.lastReceive = now ∧
      (Peer.onReceive K r p localPort remoteAddr 0 packetId verb inRePacketId inReVerb
        now).1._ipv4p.localPort = (if localPort ≠ 0 then localPort else K.ANY_PORT) ∧
      (Peer.onReceive K r p localPort remoteAddr 0 packetId verb inRePacketId inReVerb
        now).1._ipv4p.lastSend = p._ipv4p.lastSend ∧
      (Peer.onReceive K r p localPort remoteAddr 0 packetId verb inRePacketId inReVerb
        now).1._ipv4p.lastFirewallOpener = p._ipv4p.lastFirewallOpener ∧
      (Peer.onReceive K r p localPort remoteAddr 0 packetId verb inRePacketId inReVerb
        now).1._ipv4p.fixed = p._ipv4p.fixed) ∧
    (remoteAddr.isV6 = true →
      (Peer.onReceive K r p localPort remoteAddr 0 packetId verb inRePacketId inReVerb
        now).1._ipv4p = p._ipv4p ∧
      (Peer.onReceive K r p localPort remoteAddr 0 packetId verb inRePacketId inReVerb
        now).1._ipv6p.lastReceive = now ∧
      (Peer.onReceive K r p localPort remoteAddr 0 packetId verb inRePacketId inReVerb
        now).1._ipv6p.localPort = (if localPort ≠ 0 then localPort else K.ANY_PORT) ∧
      (Peer.onReceive K r p localPort remoteAddr 0 packetId verb inRePacketId inReVerb
        now).1._ipv6p.lastSend = p._ipv6p.lastSend ∧
      (Peer.onReceive K r p localPort remoteAddr 0 packetId verb inRePacketId inReVerb
        now).1._ipv6p.lastFirewallOpener = p._ipv6p.lastFirewallOpener ∧
      (Peer.onReceive K r p localPort remoteAddr 0 packetId verb inRePacketId inReVerb
        now).1._ipv6p.fixed = p._ipv6p.fixed) := by
  obtain ⟨o4, o6⟩ := onReceive_other_path K r p localPort remoteAddr 0 packetId verb
    inRePacketId inReVerb now
  have hs := onReceive_selected_fields K r p localPort remoteAddr packetId verb inRePacketId
    inReVerb now
  constructor
  · intro h4
    have hsel : ∀ q : Peer, selectedPath q remoteAddr = q._ipv4p := by
      intro q; unfold selectedPath; rw [if_pos h4]
    simp only [hsel] at hs
    exact ⟨o4 h4, hs⟩
  · intro h6
    have h4 : remoteAddr.isV4 = false := by
      cases remoteAddr <;> simp [InetAddress.isV4, InetAddress.isV6] at h6 ⊢
    have hsel : ∀ q : Peer, selectedPath q remoteAddr = q._ipv6p := by
      intro q; unfold selectedPath; rw [if_neg (by rw [h4]; decide)]
    simp only [hsel] at hs
    exact ⟨o6 h4, hs⟩

/-- A direct packet from the IPv4 address `addrY`, received on port 0 at time 50: the IPv6
path `pathZ` is untouched, and the IPv4 path records time 50 and the port `ANY_PORT`. -/
theorem onReceive_family_isolation_witness :
    addrY.isV4 = true ∧
    (Peer.onReceive sampleHeaders allSucceed (mkPeer (pathX false) pathZ [pendingRequest])
        0 addrY 0 9 (Verb.other 3) 7 (Verb.other 1) 50).1._ipv6p = pathZ ∧
    (Peer.onReceive sampleHeaders allSucceed (mkPeer (pathX false) pathZ [pendingRequest])
        0 addrY 0 9 (Verb.other 3) 7 (Verb.other 1) 50).1._ipv4p.lastReceive = 50 ∧
    (Peer.onReceive sampleHeaders allSucceed (mkPeer (pathX false) pathZ [pendingRequest])
        0 addrY 0 9 (Verb.other 3) 7 (Verb.other 1) 50).1._ipv4p.localPort = 2 ^ 64 - 1 :=
  ⟨by decide,
   ((onReceive_family_isolation sampleHeaders allSucceed
      (mkPeer (pathX false) pathZ [pendingRequest]) 0 addrY 9 (Verb.other 3) 7 (Verb.other 1)
      50).1 (by decide)).1,
   ((onReceive_family_isolation sampleHeaders allSucceed
      (mkPeer (pathX false) pathZ [pendingRequest]) 0 addrY 9 (Verb.other 3) 7 (Verb.other 1)
      50).1 (by decide)).2.1,
   ((onReceive_family_isolation sampleHeaders allSucceed
      (mkPeer (pathX false) pathZ [pendingRequest]) 0 addrY 9 (Verb.other 3) 7 (Verb.other 1)
      50).1 (by decide)).2.2.1⟩

/-! ## Consumption of the request history -/

theorem requestHistoryLoop_skip (remoteAddr : InetAddress) (inRePacketId : Nat)
    (inReVerb : Verb) (now : Nat) (pre rest : List RequestHistoryItem) (latency : Nat)
    (wp : WanPath) (hno : ∀ x ∈ pre, slotMatches inRePacketId inReVerb x = false) :
    (requestHistoryLoop remoteAddr inRePacketId inReVerb now (pre ++ rest) latency wp).1
      = pre ++ (requestHistoryLoop remoteAddr inRePacketId inReVerb now rest latency wp).1 := by
  induction pre with
  | nil => rfl
  | cons x xs ih =>
    simp only [List.cons_append]
    have hx : slotMatches inRePacketId inReVerb x = false := hno x (List.mem_cons_self x xs)
    rw [requestHistoryLoop, if_neg (by rw [hx]; decide)]
    simp only
    rw [ih (fun y hy => hno y (List.mem_cons_of_mem x hy))]

theorem requestHistoryLoop_length (remoteAddr : InetAddress) (inRePacketId : Nat)
    (inReVerb : Verb) (now : Nat) (hist : List RequestHistoryItem) (latency : Nat)
    (wp : WanPath) :
    (requestHistoryLoop remoteAddr inRePacketId inReVerb now hist latency wp).1.length
      = hist.length := by
  induction hist with
  | nil => rfl
  | cons x xs ih =>
    rw [requestHistoryLoop]
    split
    · rfl
    · simp only [List.length_cons, ih]

theorem slotMatches_emptied (inRePacketId : Nat) (inReVerb : Verb) (h : RequestHistoryItem)
    (h0 : h.timestamp = 0) : slotMatches inRePacketId inReVerb h = false := by
  unfold slotMatches
  simp [h0]

/-- The request history after a direct packet is the history the reply scan returns. -/
theorem onReceive_history (K : Headers) (r : RuntimeEnvironment) (p : Peer) (localPort : Nat)
    (remoteAddr : InetAddress) (packetId : Nat) (verb : Verb) (inRePacketId : Nat)
    (inReVerb : Verb) (now : Nat) :
    (Peer.onReceive K r p localPort remoteAddr 0 packetId verb inRePacketId inReVerb
        now).1._requestHistory
      = (replyStep remoteAddr inRePacketId inReVerb now p._requestHistory p._latency
          (receivedPath K (selectedPath p remoteAddr) localPort now)).1 := by
  rw [onReceive_direct]
  obtain ⟨-, -, -, fh, -⟩ := frameStep_fields
    (directStep K r p localPort remoteAddr inRePacketId inReVerb now).1 verb now
  obtain ⟨-, -, d3, -⟩ := directStep_eq K r p localPort remoteAddr inRePacketId inReVerb now _
    rfl
  rw [fh, d3]

/-- C18. Request-history consumption: on a direct packet whose in-reply-to verb is not the
no-op verb, either no slot in use carries the in-reply-to id and verb and the history is
unchanged, or the history splits at its first (lowest-index) such slot `h`, and afterwards
that slot alone differs, by its timestamp, which is 0.  A slot whose timestamp is 0 is never
a match, whatever its id and verb; and when a second reply with the same in-reply-to id and
verb is delivered afterwards, the slots up to and including the consumed one are left as
they are. -/
theorem request_history_consumption (K : Headers) (r : RuntimeEnvironment) (p : Peer)
    (localPort : Nat) (remoteAddr : InetAddress) (packetId : Nat) (verb : Verb)
    (inRePacketId : Nat) (inReVerb : Verb) (now : Nat) (hv : inReVerb ≠ Verb.VERB_NOP) :
    (∀ h : RequestHistoryItem, h.timestamp = 0 →
      slotMatches inRePacketId inReVerb h = false) ∧
    (((∀ h ∈ p._requestHistory,
          ¬ (h.timestamp ≠ 0 ∧ h.packetId = inRePacketId ∧ h.verb = inReVerb)) ∧
        (Peer.onReceive K r p localPort remoteAddr 0 packetId verb inRePacketId inReVerb
          now).1._requestHistory = p._requestHistory) ∨
      (∃ pre h post, p._requestHistory = pre ++ h :: post ∧
        (∀ x ∈ pre, ¬ (x.timestamp ≠ 0 ∧ x.packetId = inRePacketId ∧ x.verb = inReVerb)) ∧
        (h.timestamp ≠ 0 ∧ h.packetId = inRePacketId ∧ h.verb = inReVerb) ∧
        (Peer.onReceive K r p localPort remoteAddr 0 packetId verb inRePacketId inReVerb
          now).1._requestHistory = pre ++ { h with timestamp := 0 } :: post ∧
        (∀ (r2 : RuntimeEnvironment) (localPort2 : Nat) (remoteAddr2 : InetAddress)
            (packetId2 : Nat) (verb2 : Verb) (now2 : Nat),
          ∃ post2, post2.length = post.length ∧
            (Peer.onReceive K r2
                (Peer.onReceive K r p localPort remoteAddr 0 packetId verb inRePacketId
                  inReVerb now).1
                localPort2 remoteAddr2 0 packetId2 verb2 inRePacketId inReVerb
                now2).1._requestHistory
              = pre ++ { h with timestamp := 0 } :: post2))) := by
  refine ⟨fun h h0 => slotMatches_emptied inRePacketId inReVerb h h0, ?_⟩
  by_cases hex : ∃ h ∈ p._requestHistory, slotMatches inRePacketId inReVerb h = true
  · right
    obtain ⟨pre, h, post, hsplit, hno, hm⟩ := exists_first_match inRePacketId inReVerb _ hex
    have hfirst : (Peer.onReceive K r p localPort remoteAddr 0 packetId verb inRePacketId
        inReVerb now).1._requestHistory = pre ++ { h with timestamp := 0 } :: post := by
      rw [onReceive_history, hsplit,
        replyStep_first remoteAddr inRePacketId inReVerb now pre h post _ _ hv hno hm]
    refine ⟨pre, h, post, hsplit, ?_, (slotMatches_iff inRePacketId inReVerb h).mp hm,
      hfirst, ?_⟩
    · intro x hx hc
      have := hno x hx
      rw [(slotMatches_iff inRePacketId inReVerb x).mpr hc] at this
      exact absurd this (by decide)
    · intro r2 localPort2 remoteAddr2 packetId2 verb2 now2
      have hno2 : ∀ x ∈ pre ++ [{ h with timestamp := 0 }],
          slotMatches inRePacketId inReVerb x = false := by
        intro x hx
        rcases List.mem_append.mp hx with hx | hx
        · exact hno x hx
        · rw [List.mem_singleton.mp hx]
          exact slotMatches_emptied inRePacketId inReVerb _ rfl
      have e : pre ++ { h with timestamp := 0 } :: post
          = (pre ++ [{ h with timestamp := 0 }]) ++ post := by simp
      rw [onReceive_history, hfirst]
      unfold replyStep
      rw [if_pos hv, e, requestHistoryLoop_skip _ _ _ _ _ _ _ _ hno2]
      exact ⟨(requestHistoryLoop remoteAddr2 inRePacketId inReVerb now2 post
          (Peer.onReceive K r p localPort remoteAddr 0 packetId verb inRePacketId inReVerb
            now).1._latency
          (receivedPath K
            (selectedPath (Peer.onReceive K r p localPort remoteAddr 0 packetId verb
              inRePacketId inReVerb now).1 remoteAddr2) localPort2 now2)).1,
        requestHistoryLoop_length _ _ _ _ _ _ _, by simp⟩
  · left
    have hnone : ∀ h ∈ p._requestHistory,
        ¬ (h.timestamp ≠ 0 ∧ h.packetId = inRePacketId ∧ h.verb = inReVerb) := by
      intro h hmem hc
      exact hex ⟨h, hmem, (slotMatches_iff inRePacketId inReVerb h).mpr hc⟩
    refine ⟨hnone, ?_⟩
    rw [onReceive_history, replyStep_unsolicited]
    right
    intro h hmem h0 hc
    exact hnone h hmem ⟨h0, hc.1, hc.2⟩

/-- The pending request is consumed by its reply; a second copy of the reply finds the
history as the first one left it. -/
theorem request_history_consumption_witness :
    Verb.other 1 ≠ Verb.VERB_NOP ∧
    slotMatches 7 (Verb.other 1) { pendingRequest with timestamp := 0 } = false ∧
    (Peer.onReceive sampleHeaders allSucceed (mkPeer (pathX false) emptyPath [pendingRequest])
        1 addrY 0 9 (Verb.other 3) 7 (Verb.other 1) 50).1._requestHistory
      = [{ pendingRequest with timestamp := 0 }] ∧
    (Peer.onReceive sampleHeaders allSucceed
        (Peer.onReceive sampleHeaders allSucceed
          (mkPeer (pathX false) emptyPath [pendingRequest])
          1 addrY 0 9 (Verb.other 3) 7 (Verb.other 1) 50).1
        1 addrY 0 9 (Verb.other 3) 7 (Verb.other 1) 60).1._requestHistory
      = [{ pendingRequest with timestamp := 0 }] :=
  ⟨by decide,
   (request_history_consumption sampleHeaders allSucceed
      (mkPeer (pathX false) emptyPath [pendingRequest]) 1 addrY 9 (Verb.other 3) 7
      (Verb.other 1) 50 (by decide)).1 _ rfl,
   by decide, by decide⟩

/-! ## The multicast announcement throttle -/

theorem StrictTotalComparison.cases {R : Type} {req rlt : R → R → Bool}
    (h : StrictTotalComparison req rlt) (x y : R) :
    (rlt x y = true ∧ req x y = false ∧ rlt y x = false ∧ req y x = false) ∨
    (rlt x y = false ∧ req x y = true ∧ rlt y x = false ∧ req y x = true) ∨
    (rlt x y = false ∧ req x y = false ∧ rlt y x = true ∧ req y x = false) := by
  rcases h.1 x y with ⟨a, b, c⟩ | ⟨a, b, c⟩ | ⟨a, b, c⟩ <;>
    rcases h.1 y x with ⟨a2, b2, c2⟩ | ⟨a2, b2, c2⟩ | ⟨a2, b2, c2⟩ <;>
    simp_all

theorem StrictTotalComparison.lt_eq {R : Type} {req rlt : R → R → Bool}
    (h : StrictTotalComparison req rlt) {x y z : R} (hxy : rlt x y = true)
    (hyz : req y z = true) : rlt x z = true := by
  rcases h.cases x z with ⟨a, -⟩ | ⟨-, a, -, a2⟩ | ⟨-, -, a, -⟩
  · exact a
  · rcases h.cases y z with ⟨-, b, -⟩ | ⟨-, -, -, b⟩ | ⟨-, b, -⟩
    · rw [hyz] at b; exact absurd b (by decide)
    · have hxy2 := h.2.2 x z y a b
      rcases h.cases x y with ⟨-, c, -⟩ | ⟨c, -⟩ | ⟨c, -⟩
      · rw [hxy2] at c; exact absurd c (by decide)
      · rw [hxy] at c; exact absurd c (by decide)
      · rw [hxy] at c; exact absurd c (by decide)
    · rw [hyz] at b; exact absurd b (by decide)
  · have hzy := h.2.1 z x y a hxy
    rcases h.cases y z with ⟨-, b, -⟩ | ⟨-, -, b, -⟩ | ⟨-, b, -⟩
    · rw [hyz] at b; exact absurd b (by decide)
    · rw [hzy] at b; exact absurd b (by decide)
    · rw [hyz] at b; exact absurd b (by decide)

theorem StrictTotalComparison.eq_lt {R : Type} {req rlt : R → R → Bool}
    (h : StrictTotalComparison req rlt) {x y z : R} (hxy : req x y = true)
    (hyz : rlt y z = true) : rlt x z = true := by
  rcases h.cases x z with ⟨a, -⟩ | ⟨-, a, -, a2⟩ | ⟨-, -, a, -⟩
  · exact a
  · rcases h.cases x y with ⟨-, b, -⟩ | ⟨-, -, -, b⟩ | ⟨-, b, -⟩
    · rw [hxy] at b; exact absurd b (by decide)
    · have hyz2 := h.2.2 y x z b a
      rcases h.cases y z with ⟨-, c, -⟩ | ⟨c, -⟩ | ⟨c, -⟩
      · rw [hyz2] at c; exact absurd c (by decide)
      · rw [hyz] at c; exact absurd c (by decide)
      · rw [hyz] at c; exact absurd c (by decide)
    · rw [hxy] at b; exact absurd b (by decide)
  · have hyx := h.2.1 y z x hyz a
    rcases h.cases x y with ⟨-, b, -⟩ | ⟨-, -, b, -⟩ | ⟨-, b, -⟩
    · rw [hxy] at b; exact absurd b (by decide)
    · rw [hyx] at b; exact absurd b (by decide)
    · rw [hxy] at b; exact absurd b (by decide)

theorem Filter.Rule.lt_iff_lexSmaller {R : Type} (req rlt : R → R → Bool)
    (a b : Filter.Rule R) :
    Filter.Rule.lt req rlt a b = true ↔ Filter.Rule.lexSmaller req rlt a b := by
  unfold Filter.Rule.lt Filter.Rule.lexSmaller
  cases rlt a._etherType b._etherType <;> cases req a._etherType b._etherType <;>
    cases rlt a._protocol b._protocol <;> cases req a._protocol b._protocol <;>
    cases rlt a._port b._port <;> simp

theorem Filter.Rule.trichotomy {R : Type} {req rlt : R → R → Bool}
    (h : StrictTotalComparison req rlt) (a b : Filter.Rule R) :
    (Filter.Rule.lt req rlt a b = true ∧ Filter.Rule.eq req a b = false ∧
      Filter.Rule.lt req rlt b a = false) ∨
    (Filter.Rule.lt req rlt a b = false ∧ Filter.Rule.eq req a b = true ∧
      Filter.Rule.lt req rlt b a = false) ∨
    (Filter.Rule.lt req rlt a b = false ∧ Filter.Rule.eq req a b = false ∧
      Filter.Rule.lt req rlt b a = true) := by
  unfold Filter.Rule.lt Filter.Rule.eq
  rcases h.cases a._etherType b._etherType with ⟨e1, e2, e3, e4⟩ | ⟨e1, e2, e3, e4⟩ |
      ⟨e1, e2, e3, e4⟩ <;>
    rcases h.cases a._protocol b._protocol with ⟨p1, p2, p3, p4⟩ | ⟨p1, p2, p3, p4⟩ |
      ⟨p1, p2, p3, p4⟩ <;>
    rcases h.cases a._port b._port with ⟨q1, q2, q3, q4⟩ | ⟨q1, q2, q3, q4⟩ |
      ⟨q1, q2, q3, q4⟩ <;>
    simp [e1, e2, e3, e4, p1, p2, p3, p4, q1, q2, q3, q4]

theorem Filter.Rule.lt_trans {R : Type} {req rlt : R → R → Bool}
    (h : StrictTotalComparison req rlt) (a b c : Filter.Rule R)
    (hab : Filter.Rule.lt req rlt a b = true) (hbc : Filter.Rule.lt req rlt b c = true) :
    Filter.Rule.lt req rlt a c = true := by
  rw [Filter.Rule.lt_iff_lexSmaller] at hab hbc ⊢
  rcases hab with e1 | ⟨e1, p1 | ⟨p1, q1⟩⟩ <;> rcases hbc with e2 | ⟨e2, p2 | ⟨p2, q2⟩⟩
  · exact Or.inl (h.2.1 _ _ _ e1 e2)
  · exact Or.inl (h.lt_eq e1 e2)
  · exact Or.inl (h.lt_eq e1 e2)
  · exact Or.inl (h.eq_lt e1 e2)
  · exact Or.inr ⟨h.2.2 _ _ _ e1 e2, Or.inl (h.2.1 _ _ _ p1 p2)⟩
  · exact Or.inr ⟨h.2.2 _ _ _ e1 e2, Or.inl (h.lt_eq p1 p2)⟩
  · exact Or.inl (h.eq_lt e1 e2)
  · exact Or.inr ⟨h.2.2 _ _ _ e1 e2, Or.inl (h.eq_lt p1 p2)⟩
  · exact Or.inr ⟨h.2.2 _ _ _ e1 e2, Or.inr ⟨h.2.2 _ _ _ p1 p2, h.2.1 _ _ _ q1 q2⟩⟩

/-- The comparisons of the spec's ranges (numeric pairs) form a strict total comparison. -/
theorem Range.strictTotalComparison : StrictTotalComparison Range.eq Range.lt := by
  refine ⟨fun x y => ?_, fun x y z h1 h2 => ?_, fun x y z h1 h2 => ?_⟩
  · simp only [Range.eq, Range.lt, Bool.or_eq_true, Bool.and_eq_true, decide_eq_true_eq,
      Bool.or_eq_false_iff, Bool.and_eq_false_iff, decide_eq_false_iff_not]
    omega
  · simp only [Range.lt, Bool.or_eq_true, Bool.and_eq_true, decide_eq_true_eq] at h1 h2 ⊢
    omega
  · simp only [Range.eq, Bool.and_eq_true, decide_eq_true_eq] at h1 h2 ⊢
    omega

/-- C13. Rule ordering: if the range comparisons `==` and `<` form a strict total order
(exactly one of `x < y`, `x == y`, `y < x` holds; `<` and `==` are transitive), then for all
rules `a`, `b`, `c`: exactly one of `a < b`, `a == b`, `b < a` holds; `a < b` and `b < c`
give `a < c`; `a < b` holds exactly when (etherType, protocol, port) of `a` is
lexicographically smaller than that of `b`; and `a <= b` iff (`a < b` or `a == b`), `a > b`
iff `b < a`, `a >= b` iff not `a < b`, `a != b` iff not `a == b`. -/
theorem rule_order_lexicographic_total {R : Type} (req rlt : R → R → Bool)
    (h : StrictTotalComparison req rlt) (a b c : Filter.Rule R) :
    ((Filter.Rule.lt req rlt a b = true ∧ Filter.Rule.eq req a b = false ∧
        Filter.Rule.lt req rlt b a = false) ∨
      (Filter.Rule.lt req rlt a b = false ∧ Filter.Rule.eq req a b = true ∧
        Filter.Rule.lt req rlt b a = false) ∨
      (Filter.Rule.lt req rlt a b = false ∧ Filter.Rule.eq req a b = false ∧
        Filter.Rule.lt req rlt b a = true)) ∧
    (Filter.Rule.lt req rlt a b = true → Filter.Rule.lt req rlt b c = true →
      Filter.Rule.lt req rlt a c = true) ∧
    (Filter.Rule.lt req rlt a b = true ↔ Filter.Rule.lexSmaller req rlt a b) ∧
    (Filter.Rule.le req rlt a b = true ↔
      (Filter.Rule.lt req rlt a b = true ∨ Filter.Rule.eq req a b = true)) ∧
    (Filter.Rule.gt req rlt a b = true ↔ Filter.Rule.lt req rlt b a = true) ∧
    (Filter.Rule.ge req rlt a b = true ↔ ¬ Filter.Rule.lt req rlt a b = true) ∧
    (Filter.Rule.ne req a b = true ↔ ¬ Filter.Rule.eq req a b = true) := by
  refine ⟨Filter.Rule.trichotomy h a b, Filter.Rule.lt_trans h a b c,
    Filter.Rule.lt_iff_lexSmaller req rlt a b, ?_, Iff.rfl, ?_, ?_⟩
  · unfold Filter.Rule.le
    rcases Filter.Rule.trichotomy h a b with ⟨t1, t2, t3⟩ | ⟨t1, t2, t3⟩ | ⟨t1, t2, t3⟩ <;>
      simp [t1, t2, t3]
  · unfold Filter.Rule.ge
    simp
  · unfold Filter.Rule.ne
    simp

/-- The rules (IPv4, TCP, 80) and (IPv4, TCP, 443) under the comparisons of the spec's
ranges: the first is the smaller one, and not the other way round. -/
theorem rule_order_lexicographic_total_witness :
    Filter.Rule.lt Range.eq Range.lt ruleTcp80 ruleTcp443 = true ∧
    Filter.Rule.eq Range.eq ruleTcp80 ruleTcp443 = false ∧
    Filter.Rule.lt Range.eq Range.lt ruleTcp443 ruleTcp80 = false ∧
    (Filter.Rule.le Range.eq Range.lt ruleTcp80 ruleTcp443 = true ↔
      (Filter.Rule.lt Range.eq Range.lt ruleTcp80 ruleTcp443 = true ∨
        Filter.Rule.eq Range.eq ruleTcp80 ruleTcp443 = true)) :=
  ⟨by decide, by decide, by decide,
   (rule_order_lexicographic_total Range.eq Range.lt Range.strictTotalComparison
      ruleTcp80 ruleTcp443 ruleAny).2.2.2.1⟩

/-! ## The filter chain: deduplication -/

theorem Filter.Rule.eq_range_iff (a b : Filter.Rule Range) :
    Filter.Rule.eq Range.eq a b = true ↔ a = b := by
  obtain ⟨⟨a1, a2⟩, ⟨a3, a4⟩, ⟨a5, a6⟩⟩ := a
  obtain ⟨⟨b1, b2⟩, ⟨b3, b4⟩, ⟨b5, b6⟩⟩ := b
  simp [Filter.Rule.eq, Range.eq, and_assoc]

theorem Filter.add_pairwise (chain : List (Filter.Entry Range)) (r : Filter.Rule Range)
    (a : Filter.Action)
    (h : List.Pairwise (fun e1 e2 : Filter.Entry Range =>
      Filter.Rule.eq Range.eq e1.rule e2.rule = false) chain) :
    List.Pairwise (fun e1 e2 : Filter.Entry Range =>
      Filter.Rule.eq Range.eq e1.rule e2.rule = false) (Filter.add Range.eq chain r a) := by
  unfold Filter.add
  rw [List.pairwise_append]
  refine ⟨h.sublist (List.filter_sublist _), List.pairwise_singleton _ _, ?_⟩
  intro x hx y hy
  rw [List.mem_singleton.mp hy]
  have hne : Filter.Rule.eq Range.eq r x.rule = false := by
    simpa using (List.mem_filter.mp hx).2
  cases hc : Filter.Rule.eq Range.eq x.rule r
  · rfl
  · have e := (Filter.Rule.eq_range_iff x.rule r).mp hc
    rw [e, (Filter.Rule.eq_range_iff r r).mpr rfl] at hne
    exact absurd hne (by decide)

theorem Filter.foldl_pairwise (ms : List (Filter.Mutation Range)) :
    ∀ chain : List (Filter.Entry Range),
      List.Pairwise (fun e1 e2 : Filter.Entry Range =>
        Filter.Rule.eq Range.eq e1.rule e2.rule = false) chain →
      List.Pairwise (fun e1 e2 : Filter.Entry Range =>
        Filter.Rule.eq Range.eq e1.rule e2.rule = false)
        (ms.foldl (Filter.Mutation.run Range.eq) chain) := by
  induction ms with
  | nil => intro chain h; exact h
  | cons m rest ih =>
    intro chain h
    rw [List.foldl_cons]
    apply ih
    cases m with
    | add r a => exact Filter.add_pairwise chain r a h
    | clear => exact List.Pairwise.nil

/-- C16. Filter chain rule dedup, with `Filter::add` as the specification words it and ranges
compared as numeric pairs: in every chain built from the empty chain by `add` and `clear` no
two entries have equal rules; and for every chain, rule `r` and action `a`, the chain after
`add(r, a)` has exactly one entry whose rule equals `r`, its last entry is `(r, a)`, and the
entries before it are the previous chain without its entries for `r`, in their previous
order; so adding `r` with ALLOW and then with DENY leaves one entry for `r`, with DENY, at
the end. -/
theorem chain_rule_dedup :
    (∀ ms : List (Filter.Mutation Range),
      List.Pairwise (fun e1 e2 : Filter.Entry Range =>
        Filter.Rule.eq Range.eq e1.rule e2.rule = false) (Filter.build Range.eq ms)) ∧
    (∀ (chain : List (Filter.Entry Range)) (r : Filter.Rule Range) (a : Filter.Action),
      (Filter.add Range.eq chain r a).countP
          (fun e => Filter.Rule.eq Range.eq e.rule r) = 1 ∧
      (Filter.add Range.eq chain r a).getLast? = some { rule := r, action := a } ∧
      (Filter.add Range.eq chain r a).dropLast
        = chain.filter (fun e => !(Filter.Rule.eq Range.eq r e.rule)) ∧
      List.Sublist (chain.filter (fun e => !(Filter.Rule.eq Range.eq r e.rule))) chain) ∧
    (∀ (chain : List (Filter.Entry Range)) (r : Filter.Rule Range),
      Filter.add Range.eq
          (Filter.add Range.eq chain r Filter.Action.ACTION_ALLOW) r
          Filter.Action.ACTION_DENY
        = chain.filter (fun e => !(Filter.Rule.eq Range.eq r e.rule))
            ++ [{ rule := r, action := Filter.Action.ACTION_DENY }]) := by
  refine ⟨fun ms => Filter.foldl_pairwise ms [] List.Pairwise.nil, ?_, ?_⟩
  · intro chain r a
    have hrr : Filter.Rule.eq Range.eq r r = true := (Filter.Rule.eq_range_iff r r).mpr rfl
    refine ⟨?_, ?_, ?_, List.filter_sublist _⟩
    · unfold Filter.add
      rw [List.countP_append]
      have h0 : (chain.filter (fun e => !(Filter.Rule.eq Range.eq r e.rule))).countP
          (fun e => Filter.Rule.eq Range.eq e.rule r) = 0 := by
        rw [List.countP_eq_zero]
        intro x hx
        have hne : Filter.Rule.eq Range.eq r x.rule = false := by
          simpa using (List.mem_filter.mp hx).2
        intro hc
        have e := (Filter.Rule.eq_range_iff x.rule r).mp hc
        rw [e, hrr] at hne
        exact absurd hne (by decide)
      rw [h0]
      simp [hrr]
    · unfold Filter.add
      simp
    · unfold Filter.add
      simp
  · intro chain r
    have hrr : Filter.Rule.eq Range.eq r r = true := (Filter.Rule.eq_range_iff r r).mpr rfl
    unfold Filter.add
    simp [List.filter_append, hrr]

/-- Adding the port-80 rule with ALLOW and then with DENY to a chain holding an ARP rule
leaves the ARP entry followed by one port-80 entry, with DENY. -/
theorem chain_rule_dedup_witness :
    Filter.add Range.eq
        (Filter.add Range.eq [{ rule := ruleArp, action := Filter.Action.ACTION_LOG }]
          ruleTcp80 Filter.Action.ACTION_ALLOW)
        ruleTcp80 Filter.Action.ACTION_DENY
      = [{ rule := ruleArp, action := Filter.Action.ACTION_LOG },
         { rule := ruleTcp80, action := Filter.Action.ACTION_DENY }] :=
  (chain_rule_dedup.2.2 [{ rule := ruleArp, action := Filter.Action.ACTION_LOG }]
    ruleTcp80).trans (by decide)

/-! ## The filter chain: evaluation -/

theorem Filter.evaluate_skip {R : Type} (ruleEval : Filter.Rule R → Nat → List Nat → Option Bool)
    (etherType : Nat) (frame : List Nat) (e : Filter.Entry R) (rest : List (Filter.Entry R))
    (h : ¬ (ruleEval e.rule etherType frame = some true ∧
      (e.action = Filter.Action.ACTION_DENY ∨ e.action = Filter.Action.ACTION_ALLOW))) :
    Filter.evaluate ruleEval etherType frame (e :: rest)
      = Filter.evaluate ruleEval etherType frame rest := by
  rw [Filter.evaluate]
  rcases hm : ruleEval e.rule etherType frame with _ | _ | _
  · rfl
  · rfl
  · rcases ha : e.action with _ | _ | _ | _
    · exact absurd ⟨hm, Or.inl ha⟩ h
    · exact absurd ⟨hm, Or.inr ha⟩ h
    · rfl
    · rfl

theorem Filter.evaluate_hit {R : Type} (ruleEval : Filter.Rule R → Nat → List Nat → Option Bool)
    (etherType : Nat) (frame : List Nat) (e : Filter.Entry R) (rest : List (Filter.Entry R))
    (hm : ruleEval e.rule etherType frame = some true)
    (ha : e.action = Filter.Action.ACTION_DENY ∨ e.action = Filter.Action.ACTION_ALLOW) :
    Filter.evaluate ruleEval etherType frame (e :: rest) = e.action := by
  rw [Filter.evaluate, hm]
  rcases ha with ha | ha <;> rw [ha]

theorem Filter.evaluate_skip_all {R : Type}
    (ruleEval : Filter.Rule R → Nat → List Nat → Option Bool)
    (etherType : Nat) (frame : List Nat) (pre rest : List (Filter.Entry R))
    (h : ∀ x ∈ pre, ¬ (ruleEval x.rule etherType frame = some true ∧
      (x.action = Filter.Action.ACTION_DENY ∨ x.action = Filter.Action.ACTION_ALLOW))) :
    Filter.evaluate ruleEval etherType frame (pre ++ rest)
      = Filter.evaluate ruleEval etherType frame rest := by
  induction pre with
  | nil => rfl
  | cons x xs ih =>
    rw [List.cons_append,
      Filter.evaluate_skip ruleEval etherType frame x (xs ++ rest)
        (h x (List.mem_cons_self x xs))]
    exact ih (fun y hy => h y (List.mem_cons_of_mem x hy))

theorem Filter.evaluate_ne_log {R : Type}
    (ruleEval : Filter.Rule R → Nat → List Nat → Option Bool)
    (etherType : Nat) (frame : List Nat) (chain : List (Filter.Entry R)) :
    Filter.evaluate ruleEval etherType frame chain = Filter.Action.ACTION_DENY ∨
    Filter.evaluate ruleEval etherType frame chain = Filter.Action.ACTION_ALLOW := by
  induction chain with
  | nil => exact Or.inr rfl
  | cons e rest ih =>
    by_cases h : ruleEval e.rule etherType frame = some true ∧
        (e.action = Filter.Action.ACTION_DENY ∨ e.action = Filter.Action.ACTION_ALLOW)
    · rw [Filter.evaluate_hit ruleEval etherType frame e rest h.1 h.2]
      exact h.2
    · rw [Filter.evaluate_skip ruleEval etherType frame e rest h]
      exact ih

/-- C17. Filter chain evaluation, with `Filter::operator()` as the specification words it,
for any evaluator of single rules: if the chain splits at its first entry whose rule matches
the frame and whose action is DENY or ALLOW, the result is that entry's action; if the chain
(the empty one included) has no such entry the result is ALLOW; a LOG entry in front of a
chain does not change the result, and the result is never LOG (it is DENY or ALLOW). -/
theorem evaluate_first_match_wins {R : Type}
    (ruleEval : Filter.Rule R → Nat → List Nat → Option Bool)
    (etherType : Nat) (frame : List Nat) (chain : List (Filter.Entry R)) :
    (∀ pre e post, chain = pre ++ e :: post →
      (∀ x ∈ pre, ¬ (ruleEval x.rule etherType frame = some true ∧
        (x.action = Filter.Action.ACTION_DENY ∨ x.action = Filter.Action.ACTION_ALLOW))) →
      ruleEval e.rule etherType frame = some true →
      (e.action = Filter.Action.ACTION_DENY ∨ e.action = Filter.Action.ACTION_ALLOW) →
      Filter.evaluate ruleEval etherType frame chain = e.action) ∧
    ((∀ x ∈ chain, ¬ (ruleEval x.rule etherType frame = some true ∧
        (x.action = Filter.Action.ACTION_DENY ∨ x.action = Filter.Action.ACTION_ALLOW))) →
      Filter.evaluate ruleEval etherType frame chain = Filter.Action.ACTION_ALLOW) ∧
    Filter.evaluate ruleEval etherType frame [] = Filter.Action.ACTION_ALLOW ∧
    (∀ e : Filter.Entry R, e.action = Filter.Action.ACTION_LOG →
      Filter.evaluate ruleEval etherType frame (e :: chain)
        = Filter.evaluate ruleEval etherType frame chain) ∧
    Filter.evaluate ruleEval etherType frame chain ≠ Filter.Action.ACTION_LOG ∧
    (Filter.evaluate ruleEval etherType frame chain = Filter.Action.ACTION_DENY ∨
      Filter.evaluate ruleEval etherType frame chain = Filter.Action.ACTION_ALLOW) := by
  refine ⟨?_, ?_, rfl, ?_, ?_, Filter.evaluate_ne_log ruleEval etherType frame chain⟩
  · intro pre e post hsplit hpre hm ha
    rw [hsplit, Filter.evaluate_skip_all ruleEval etherType frame pre (e :: post) hpre,
      Filter.evaluate_hit ruleEval etherType frame e post hm ha]
  · intro hnone
    have h := Filter.evaluate_skip_all ruleEval etherType frame chain [] hnone
    rw [List.append_nil] at h
    rw [h]
    rfl
  · intro e he
    apply Filter.evaluate_skip
    rintro ⟨-, ha | ha⟩ <;> rw [he] at ha <;> exact absurd ha (by decide)
  · rcases Filter.evaluate_ne_log ruleEval etherType frame chain with h | h <;> rw [h] <;>
      decide

/-- The chain `[(IPv4, LOG), (IPv4, DENY), (ARP, ALLOW)]` on an IPv4 frame: the LOG entry is
passed over and the result is DENY. -/
theorem evaluate_first_match_wins_witness :
    sampleRuleEval ruleIpv4 2048 [69, 0] = some true ∧
    Filter.evaluate sampleRuleEval 2048 [69, 0]
        [{ rule := ruleIpv4, action := Filter.Action.ACTION_LOG },
         { rule := ruleIpv4, action := Filter.Action.ACTION_DENY },
         { rule := ruleArp, action := Filter.Action.ACTION_ALLOW }]
      = Filter.Action.ACTION_DENY :=
  ⟨by decide,
   (evaluate_first_match_wins sampleRuleEval 2048 [69, 0]
      [{ rule := ruleIpv4, action := Filter.Action.ACTION_LOG },
       { rule := ruleIpv4, action := Filter.Action.ACTION_DENY },
       { rule := ruleArp, action := Filter.Action.ACTION_ALLOW }]).1
      [{ rule := ruleIpv4, action := Filter.Action.ACTION_LOG }]
      { rule := ruleIpv4, action := Filter.Action.ACTION_DENY }
      [{ rule := ruleArp, action := Filter.Action.ACTION_ALLOW }]
      rfl (by decide) (by decide) (by decide)⟩

end ZeroTier
